import Mathlib

/-! Online-Server/server.js : a shallow embedding

The WebSocket hub of `Online-Server/server.js` is embedded as pure functions
over an explicit server state.

Modelling conventions

* JavaScript numbers are exact rationals (`ℚ`); `Date.now()` is a natural
  number of milliseconds handed to every handler.
* A plain JavaScript object used as a dictionary (`players`,
  `lastUpdateTime`) is the list of its own properties in the order
  `Object.keys` / `Object.entries` enumerate them.  A read `o[k]` of a key
  that is not an own property finds the members that a plain object inherits
  from `Object.prototype` (`objectPrototypeKeys`), all of them truthy and none
  a number; `delete` and the enumerations see own properties only.
* `Math.random()` is a stream of draws in `[0, 1)` handed to the handler.
* `setInterval` / `setTimeout` / `clearInterval` act on an explicit table of
  live timers; a handle is a natural number and is always truthy.
* Every call of `broadcast(..)` and of `ws.send(..)` is recorded, in order, in
  the list of outputs of the handler.
* The functions imported from `./zombieController` are not part of this file
  of the repository; they are the fields of `ZombieController`.
-/

namespace OnlineServer

/-! ## Plain objects as ordered dictionaries -/

/-- Own properties of a plain object, in enumeration order. -/
abbrev Obj (α : Type) := List (String × α)

/-- The value of `s` as an array index: a string of decimal digits without a
superfluous leading zero, of value below `2^32 - 1`.  Such keys are enumerated
first, in ascending order. -/
def arrayIndex? (s : String) : Option Nat :=
  let cs := s.toList
  let n := cs.foldl (fun n c => n * 10 + (c.toNat - 48)) 0
  if cs ≠ [] ∧ cs.all Char.isDigit ∧ (cs.head? ≠ some '0' ∨ cs.length = 1)
      ∧ n < 4294967295 then some n
  else none

/-- Property read `o[k]` (own properties only). -/
def Obj.get {α : Type} : Obj α → String → Option α
  | [], _ => none
  | (k', v) :: rest, k => if k' = k then some v else Obj.get rest k

/-- Whether `k` is an own property. -/
def Obj.has {α : Type} (o : Obj α) (k : String) : Bool :=
  (o.get k).isSome

/-- Overwrite the value of an existing own property, keeping its place. -/
def Obj.replace {α : Type} : Obj α → String → α → Obj α
  | [], _, _ => []
  | (k', v') :: rest, k, v =>
    if k' = k then (k, v) :: rest else (k', v') :: Obj.replace rest k v

/-- Create the array-index property `k` (of value `n`): it goes before the
first property that is not an array index or is a larger one. -/
def Obj.insertIndex {α : Type} : Obj α → Nat → String → α → Obj α
  | [], _, k, v => [(k, v)]
  | (k', v') :: rest, n, k, v =>
    match arrayIndex? k' with
    | some m =>
      if n < m then (k, v) :: (k', v') :: rest
      else (k', v') :: Obj.insertIndex rest n k v
    | none => (k, v) :: (k', v') :: rest

/-- Property write `o[k] = v`. -/
def Obj.set {α : Type} (o : Obj α) (k : String) (v : α) : Obj α :=
  if o.has k then o.replace k v
  else
    match arrayIndex? k with
    | some n => o.insertIndex n k v
    | none => o ++ [(k, v)]

/-- Property removal `delete o[k]`. -/
def Obj.delete {α : Type} (o : Obj α) (k : String) : Obj α :=
  o.filter (fun e => !(e.1 == k))

/-- The list `Object.keys(o)`. -/
def Obj.keys {α : Type} (o : Obj α) : List String :=
  o.map Prod.fst

/-- The names of the members that every plain object inherits from
`Object.prototype`: for these keys `o[k]` is a function (for `__proto__`, the
prototype object) when `o` has no own property `k`. -/
def objectPrototypeKeys : List String :=
  ["constructor", "__defineGetter__", "__defineSetter__", "hasOwnProperty",
   "__lookupGetter__", "__lookupSetter__", "isPrototypeOf", "propertyIsEnumerable",
   "toString", "valueOf", "__proto__", "toLocaleString"]

/-- Whether `o[k]` is an inherited member when `k` is not an own property. -/
def inherited (k : String) : Bool :=
  decide (k ∈ objectPrototypeKeys)

/-! ## Values -/

/-- A position `{x, y}`. -/
structure Pos where
  x : ℚ
  y : ℚ
  deriving DecidableEq, Repr

/-- An entry of `players`. -/
structure Player where
  x : ℚ
  y : ℚ
  currentMap : String
  color : String
  type : String
  deriving DecidableEq, Repr

/-- An element of `zombieGame.zombies`. -/
structure Zombie where
  id : String
  position : Pos
  target : Option String
  difficulty : Nat
  deriving DecidableEq, Repr

/-- The per-zombie record sent to clients: id, x, y, difficulty. -/
structure ZombieData where
  id : String
  x : ℚ
  y : ℚ
  difficulty : Nat
  deriving DecidableEq, Repr

/-- One result of `Math.random()`. -/
structure Draw where
  val : ℚ
  nonneg : 0 ≤ val
  lt_one : val < 1

/-- The results of successive calls of `Math.random()`. -/
abbrev Rand := Nat → Draw

/-- Modelled from the spec: the module `./zombieController`, which is not
among the sources.  `isValidMove x y map` is the traversability test;
`moveZombieTowardsPlayer` and `moveZombieRandomly` take one step, so they are
given by the hunter's next position (the natural number passed to
`moveZombieRandomly` stands for its internal randomness); `isPlayerCaught` is
the catch test on a hunter and a player record. -/
structure ZombieController where
  isValidMove : ℤ → ℤ → String → Bool
  moveZombieTowardsPlayer : Zombie → Player → String → Pos
  moveZombieRandomly : Nat → Zombie → String → Pos
  isPlayerCaught : Zombie → Player → Bool

/-- Modelled from the spec: `calculateDistance` of `./zombieController` is
the Euclidean distance between `(x1, y1)` and `(x2, y2)`.  The model keeps the
square of that distance, and `a < b` between two distances is decided on the
squares. -/
def calculateDistanceSq (x1 y1 x2 y2 : ℚ) : ℚ :=
  (x1 - x2) ^ 2 + (y1 - y2) ^ 2

/-! ## Outputs -/

/-- The events the server sends. -/
inductive Payload where
  | positions (players : Obj Player)
  | update (id : String) (x y : ℚ) (map : String)
  | disconnect (id : String)
  | zombie_position_batch (zombies : List ZombieData) (map : String)
      (difficulty : Nat) (timestamp : Nat)
  | command_start (difficulty : Nat) (map : String) (zombies : List ZombieData)
  | command_stop
  | command_caught (player : String)
  | command_zombie_slowed (player : Option String)
  | command_zombie_speed_normal
  | player_result (player : Option String) (survived : Option Bool)
      (time score : Option ℚ)
  | zombie_game_food (player : Option String) (score x y : Option ℚ)
  deriving DecidableEq, Repr

/-- One output action: `broadcast(data)` or `ws.send(JSON.stringify(data))`
on the connection whose message is being handled. -/
inductive Out where
  | broadcast (p : Payload)
  | send (p : Payload)
  deriving DecidableEq, Repr

/-! ## Messages -/

/-- The field `data.id` of an inbound message: missing or null, a string, or
any other value (one without a callable `trim`). -/
inductive IdField where
  | absent
  | str (s : String)
  | other
  deriving DecidableEq, Repr

/-- A parsed inbound message.  `map`, `action`, `player` hold the field when it
is a string; `x`, `y`, `time`, `score` hold it when it is a number;
`difficulty` when it is a natural number; `localPos` and `remotePos` are the
fields `local` and `remote` when they are objects with numeric `x` and `y`.
A field that is missing is `none`. -/
structure Message where
  type : String
  id : IdField := IdField.absent
  map : Option String := none
  x : Option ℚ := none
  y : Option ℚ := none
  localPos : Option Pos := none
  remotePos : Option Pos := none
  action : Option String := none
  player : Option String := none
  difficulty : Option Nat := none
  survived : Option Bool := none
  time : Option ℚ := none
  score : Option ℚ := none
  deriving DecidableEq, Repr

/-- What arrives on the socket: text on which `JSON.parse` throws (or which
parses to `null`), or a message object. -/
inductive Inbound where
  | malformed
  | msg (data : Message)
  deriving DecidableEq, Repr

/-- The white space and line terminators removed by `String.prototype.trim`. -/
def isJsWhiteSpace (c : Char) : Bool :=
  let n := c.toNat
  n = 0x09 || n = 0x0A || n = 0x0B || n = 0x0C || n = 0x0D || n = 0x20 ||
  n = 0xA0 || n = 0x1680 || (0x2000 ≤ n && n ≤ 0x200A) || n = 0x2028 ||
  n = 0x2029 || n = 0x202F || n = 0x205F || n = 0x3000 || n = 0xFEFF

/-- The string `s.trim()`. -/
def jsTrim (s : String) : String :=
  String.mk ((s.toList.dropWhile isJsWhiteSpace).reverse.dropWhile isJsWhiteSpace).reverse

/-- The string `v || d` for a string-or-missing `v`. -/
def strOr (v : Option String) (d : String) : String :=
  match v with
  | some s => if s = "" then d else s
  | none => d

/-- The number `v || d` for a number-or-missing `v`. -/
def natOr (v : Option Nat) (d : Nat) : Nat :=
  match v with
  | some n => if n = 0 then d else n
  | none => d

/-! ## Server state -/

/-- The mutable fields of `zombieGame`. -/
structure ZombieGame where
  zombies : List Zombie
  isActive : Bool
  difficulty : Nat
  currentMap : String
  deriving DecidableEq, Repr

/-- The table `zombieGame.updateIntervals`. -/
def updateIntervals (difficulty : Nat) : Option Nat :=
  if difficulty = 1 then some 1200
  else if difficulty = 2 then some 800
  else if difficulty = 3 then some 500
  else none

/-- The table `zombieGame.zombieCount`. -/
def zombieCount (difficulty : Nat) : Option Nat :=
  if difficulty = 1 then some 2
  else if difficulty = 2 then some 4
  else if difficulty = 3 then some 6
  else none

/-- The callbacks handed to `setTimeout`: the 3000 ms speed restore of a food
pickup (it captures `oldInterval`), the 1000 ms sync of a new connection, and
the 5000 ms removal from `caughtPlayers`. -/
inductive Timeout where
  | restore (oldInterval : Option Nat)
  | sync
  | uncatch (playerId : String)
  deriving DecidableEq, Repr

/-- The module-level state of the server.  `intervals` lists the live
interval timers whose callback runs `updateZombiePositions`, each with its
handle and its delay (`none` is a delay that is `undefined` or `NaN`);
`timeouts` lists the pending one-shot callbacks. -/
structure ServerState where
  players : Obj Player
  lastUpdateTime : Obj Nat
  zombieGame : ZombieGame
  zombieUpdateInterval : Option Nat
  caughtPlayers : List String
  intervals : List (Nat × Option Nat)
  timeouts : List (Nat × Timeout)
  nextHandle : Nat
  deriving DecidableEq, Repr

/-- The state when the module has been loaded. -/
def ServerState.init : ServerState where
  players := []
  lastUpdateTime := []
  zombieGame :=
    { zombies := [], isActive := false, difficulty := 1, currentMap := "escom_cafeteria" }
  zombieUpdateInterval := none
  caughtPlayers := []
  intervals := []
  timeouts := []
  nextHandle := 0

/-- A call `setInterval(tick, delay)`: the state with the new timer, and its handle. -/
def setInterval (s : ServerState) (delay : Option Nat) : ServerState × Nat :=
  ({ s with intervals := s.intervals ++ [(s.nextHandle, delay)],
            nextHandle := s.nextHandle + 1 }, s.nextHandle)

/-- A call `clearInterval(h)`. -/
def clearInterval (s : ServerState) (h : Nat) : ServerState :=
  { s with intervals := s.intervals.filter (fun t => !(t.1 == h)) }

/-- A call `setTimeout(cb, ..)`. -/
def setTimeout (s : ServerState) (cb : Timeout) : ServerState :=
  { s with timeouts := s.timeouts ++ [(s.nextHandle, cb)],
           nextHandle := s.nextHandle + 1 }

/-- What a handler leaves behind: the new state, the outputs in order, and
whether an exception reached the `catch` block of the message handler. -/
structure Result where
  state : ServerState
  out : List Out := []
  errorLogged : Bool := false

/-! ## Player positions -/

/-- The string `generateRandomColor()` for the draw `r`. -/
def generateRandomColor (r : Draw) : String :=
  "#" ++ String.mk (Nat.toDigits 16 (⌊r.val * 16777215⌋).toNat)

/-- The function `shouldUpdate(playerId)` at time `currentTime`: the verdict
and the new `lastUpdateTime`.  When `playerId` has no timestamp but names an
inherited member, `lastUpdateTime[playerId]` is truthy and the difference is
`NaN`, so the verdict is `false`. -/
def shouldUpdate (lastUpdateTime : Obj Nat) (currentTime : Nat) (playerId : String) :
    Bool × Obj Nat :=
  match lastUpdateTime.get playerId with
  | none =>
    if inherited playerId then (false, lastUpdateTime)
    else (true, lastUpdateTime.set playerId currentTime)
  | some t =>
    if t = 0 ∨ (currentTime : ℤ) - (t : ℤ) ≥ 50 then
      (true, lastUpdateTime.set playerId currentTime)
    else (false, lastUpdateTime)

/-- The function `hasPositionChangedSignificantly(oldPos, newPos)`. -/
def hasPositionChangedSignificantly (oldPos : Option Player) (newPos : Pos) : Bool :=
  match oldPos with
  | none => true
  | some o => o.x ≠ newPos.x || o.y ≠ newPos.y

/-- The object returned by `processPosition`. -/
structure Positions where
  localPos : Option Pos
  remotePos : Option Pos
  deriving DecidableEq, Repr

/-- The function `processPosition(data)`. -/
def processPosition (data : Message) : Option Positions :=
  match data.x, data.y with
  | some x, some y => some { localPos := some ⟨x, y⟩, remotePos := none }
  | _, _ =>
    if data.localPos.isSome || data.remotePos.isSome then
      some { localPos := data.localPos, remotePos := data.remotePos }
    else none

/-- The division by `1e6` of the coordinates of an `update` for the map `global`. -/
def scaleGlobal (data : Message) : Message :=
  if data.type = "update" ∧ data.map = some "global" then
    { data with
      x := data.x.map (fun v => v / 1000000)
      y := data.y.map (fun v => v / 1000000)
      localPos := data.localPos.map (fun p => ⟨p.x / 1000000, p.y / 1000000⟩)
      remotePos := data.remotePos.map (fun p => ⟨p.x / 1000000, p.y / 1000000⟩) }
  else data

/-! ## The zombie game -/

/-- The function `initializeZombieGame()`. -/
def initializeZombieGame (s : ServerState) : ServerState :=
  { s with zombieGame :=
      { zombies := [], isActive := false, difficulty := 1,
        currentMap := "escom_cafeteria" } }

/-- The array `zombies.map(zombie => ({id, x, y, difficulty}))`. -/
def zombieData (zombies : List Zombie) : List ZombieData :=
  zombies.map (fun z =>
    { id := z.id, x := z.position.x, y := z.position.y, difficulty := z.difficulty })

/-- The function `syncZombiesWithAllClients()` at time `now`. -/
def syncZombiesWithAllClients (s : ServerState) (now : Nat) : List Out :=
  if s.zombieGame.isActive then
    [Out.broadcast (Payload.zombie_position_batch (zombieData s.zombieGame.zombies)
      s.zombieGame.currentMap s.zombieGame.difficulty now)]
  else []

/-- The function `broadcastZombieGameStart(difficulty, mapName)`. -/
def broadcastZombieGameStart (s : ServerState) (difficulty : Nat) (mapName : String) :
    List Out :=
  [Out.broadcast (Payload.command_start difficulty mapName (zombieData s.zombieGame.zombies))]

/-- The closure `findValidPosition(attempt)` of `startZombieGame`, reading the
random draws from index `idx` on: the position, and the index of the next
unused draw. -/
def findValidPosition (ctl : ZombieController) (mapName : String) (rand : Rand)
    (idx : Nat) (attempt : Nat) : Pos × Nat :=
  if attempt > 100 then (⟨20, 15⟩, idx)
  else
    let x : ℤ := ⌊(rand idx).val * 35⌋ + 2
    let y : ℤ := ⌊(rand (idx + 1)).val * 35⌋ + 2
    if ctl.isValidMove x y mapName then (⟨x, y⟩, idx + 2)
    else findValidPosition ctl mapName rand (idx + 2) (attempt + 1)
termination_by 101 - attempt

/-- The loop `for (let i = ..; i < zombieCount; i++)` of `startZombieGame`,
with `n` rounds left from index `i`: the zombies pushed, in order. -/
def spawnZombies (ctl : ZombieController) (mapName : String) (difficulty : Nat)
    (rand : Rand) : Nat → Nat → Nat → List Zombie
  | 0, _, _ => []
  | n + 1, i, idx =>
    let r := findValidPosition ctl mapName rand idx 0
    { id := "zombie_" ++ toString i, position := ⟨r.1.x, r.1.y⟩, target := none,
      difficulty := difficulty } :: spawnZombies ctl mapName difficulty rand n (i + 1) r.2

/-- The function `startZombieUpdates()`. -/
def startZombieUpdates (s : ServerState) : ServerState :=
  let s1 := match s.zombieUpdateInterval with
    | some h => clearInterval s h
    | none => s
  let updateInterval := (updateIntervals s1.zombieGame.difficulty).getD 1000
  let r := setInterval s1 (some updateInterval)
  { r.1 with zombieUpdateInterval := some r.2 }

/-- The function `startZombieGame(difficulty, mapName)`. -/
def startZombieGame (ctl : ZombieController) (s : ServerState) (now : Nat) (rand : Rand)
    (difficulty : Nat) (mapName : String) : ServerState × List Out :=
  if s.zombieGame.isActive then (s, syncZombiesWithAllClients s now)
  else
    let count := (zombieCount difficulty).getD 2
    let s1 := { s with zombieGame :=
      { zombies := spawnZombies ctl mapName difficulty rand count 0 0,
        isActive := true, difficulty := difficulty, currentMap := mapName } }
    (startZombieUpdates s1, broadcastZombieGameStart s1 difficulty mapName)

/-- The function `stopZombieGame()`. -/
def stopZombieGame (s : ServerState) : ServerState × List Out :=
  let s1 := { s with zombieGame := { s.zombieGame with isActive := false } }
  let s2 := match s1.zombieUpdateInterval with
    | some h => { clearInterval s1 h with zombieUpdateInterval := none }
    | none => s1
  (s2, [Out.broadcast Payload.command_stop])

/-- The array `playersInMap` of `updateZombiePositions`. -/
def playersInMap (s : ServerState) : List (String × Player) :=
  s.players.filter (fun e => e.2.currentMap == s.zombieGame.currentMap)

/-- One round of the `playersInMap.forEach` scan for a zombie at `pos`: the
pair `(nearestPlayer, shortestDistance)`, where `none` is `null`, respectively
`Infinity`; distances are kept as their squares. -/
def nearestStep (pos : Pos) (acc : Option (String × Player) × Option ℚ)
    (e : String × Player) : Option (String × Player) × Option ℚ :=
  let distance := calculateDistanceSq pos.x pos.y e.2.x e.2.y
  match acc.2 with
  | none => (some e, some distance)
  | some shortest => if distance < shortest then (some e, some distance) else acc

/-- The value of `nearestPlayer` after the scan of `playersInMap`. -/
def nearestPlayer (pos : Pos) (inMap : List (String × Player)) : Option (String × Player) :=
  (inMap.foldl (nearestStep pos) (none, none)).1

/-- The body of `zombieGame.zombies.forEach` in the branch with players in the
map: the zombie afterwards, and its broadcasts. -/
def chaseStep (ctl : ZombieController) (map : String) (inMap : List (String × Player))
    (seed : Nat) (z : Zombie) : Zombie × List Out :=
  match nearestPlayer z.position inMap with
  | some (id, data) =>
    let z1 := { z with target := some id }
    let z2 := { z1 with position := ctl.moveZombieTowardsPlayer z1 data map }
    (z2, if ctl.isPlayerCaught z2 data then [Out.broadcast (Payload.command_caught id)]
         else [])
  | none => ({ z with position := ctl.moveZombieRandomly seed z map }, [])

/-- The function `updateZombiePositions()`; the `i`-th zombie draws its random
step from `seed + i`. -/
def updateZombiePositions (ctl : ZombieController) (s : ServerState) (now : Nat)
    (seed : Nat) : ServerState × List Out :=
  if !s.zombieGame.isActive then (s, [])
  else
    let inMap := playersInMap s
    let moved : List (Zombie × List Out) :=
      if inMap.length = 0 then
        s.zombieGame.zombies.enum.map (fun iz =>
          ({ iz.2 with position :=
              ctl.moveZombieRandomly (seed + iz.1) iz.2 s.zombieGame.currentMap }, []))
      else
        s.zombieGame.zombies.enum.map (fun iz =>
          chaseStep ctl s.zombieGame.currentMap inMap (seed + iz.1) iz.2)
    let s1 := { s with zombieGame := { s.zombieGame with zombies := moved.map Prod.fst } }
    (s1, (moved.map Prod.snd).flatten ++ syncZombiesWithAllClients s1 now)

/-- The callback of the interval timers installed by `startZombieUpdates` and
by the food pickup. -/
def tickCallback (ctl : ZombieController) (s : ServerState) (now : Nat) (seed : Nat) :
    ServerState × List Out :=
  if s.zombieGame.isActive then updateZombiePositions ctl s now seed
  else
    match s.zombieUpdateInterval with
    | some h => ({ clearInterval s h with zombieUpdateInterval := none }, [])
    | none => (s, [])

/-- The function `checkZombieCollisions()`, which no code path calls; the
body of `Object.entries(players).forEach` for one player. -/
def checkCollisionsFor (s : ServerState) (acc : ServerState × List Out)
    (e : String × Player) : ServerState × List Out :=
  if e.2.currentMap = s.zombieGame.currentMap ∧ ¬ e.1 ∈ acc.1.caughtPlayers then
    s.zombieGame.zombies.foldl (fun a zombie =>
      if |zombie.position.x - e.2.x| ≤ 2 ∧ |zombie.position.y - e.2.y| ≤ 2 then
        (setTimeout { a.1 with caughtPlayers :=
            if e.1 ∈ a.1.caughtPlayers then a.1.caughtPlayers
            else a.1.caughtPlayers ++ [e.1] } (Timeout.uncatch e.1),
          a.2 ++ [Out.broadcast (Payload.command_caught e.1)])
      else a) acc
  else acc

/-- The function `checkZombieCollisions()`. -/
def checkZombieCollisions (s : ServerState) : ServerState × List Out :=
  s.players.foldl (checkCollisionsFor s) (s, [])

/-- The branch `zombie_game_food` of `processZombieGameMessages`. -/
def processFood (s : ServerState) (message : Message) : ServerState × List Out :=
  let oldInterval := updateIntervals s.zombieGame.difficulty
  let newInterval := oldInterval.map (fun v => v + 300)
  let s1 := match s.zombieUpdateInterval with
    | some h => clearInterval s h
    | none => s
  let r := setInterval s1 newInterval
  let s2 := { r.1 with zombieUpdateInterval := some r.2 }
  (setTimeout s2 (Timeout.restore oldInterval),
    [Out.broadcast (Payload.zombie_game_food message.player message.score message.x message.y),
     Out.broadcast (Payload.command_zombie_slowed message.player)])

/-- The callback armed for 3000 ms by a food pickup. -/
def restoreCallback (s : ServerState) (oldInterval : Option Nat) : ServerState × List Out :=
  match s.zombieGame.isActive, s.zombieUpdateInterval with
  | true, some h =>
    let r := setInterval (clearInterval s h) oldInterval
    ({ r.1 with zombieUpdateInterval := some r.2 },
      [Out.broadcast Payload.command_zombie_speed_normal])
  | _, _ => (s, [])

/-- The function `processZombieGameMessages(message)`. -/
def processZombieGameMessages (ctl : ZombieController) (s : ServerState) (now : Nat)
    (rand : Rand) (message : Message) : ServerState × List Out :=
  if message.type = "zombie_game_update" then
    if message.action = some "start" then
      let difficulty := natOr message.difficulty 1
      let mapName := strOr message.map "escom_cafeteria"
      if !s.zombieGame.isActive then startZombieGame ctl s now rand difficulty mapName
      else (s, syncZombiesWithAllClients s now)
    else if message.action = some "stop" then
      if s.zombieGame.isActive then stopZombieGame s else (s, [])
    else if message.action = some "complete" then
      if s.zombieGame.isActive then
        (s, [Out.broadcast (Payload.player_result message.player message.survived
          message.time message.score)])
      else (s, [])
    else (s, [])
  else if message.type = "zombie_game_food" then processFood s message
  else (s, [])

/-! ## The message handler -/

/-- The case `"join"` of the message handler, for the trimmed id.  The test
`!players[trimmedId]` fails for an own entry and for an inherited member. -/
def handleJoin (s : ServerState) (rand : Rand) (trimmedId : String) : Result :=
  if (s.players.get trimmedId).isSome || inherited trimmedId then { state := s }
  else
    let players := s.players.set trimmedId
      { x := 1, y := 1, currentMap := "main", color := generateRandomColor (rand 0),
        type := "local" }
    { state := { s with players := players }, out := [Out.send (Payload.positions players)] }

/-- The local slot of the case `"update"`: the new `players` and whether it changed. -/
def updateLocal (players : Obj Player) (rand : Rand) (trimmedId : String)
    (currentMap : String) (positions : Positions) : Obj Player × Bool :=
  match positions.localPos with
  | some p =>
    let previousPosition := players.get trimmedId
    if hasPositionChangedSignificantly previousPosition p then
      (players.set trimmedId
        { x := p.x, y := p.y, currentMap := currentMap,
          color := match previousPosition with
            | some prev => if prev.color = "" then generateRandomColor (rand 0) else prev.color
            | none => generateRandomColor (rand 0),
          type := "local" }, true)
    else (players, false)
  | none => (players, false)

/-- The remote slot of the case `"update"`: the new `players` and whether it changed. -/
def updateRemote (players : Obj Player) (trimmedId : String) (currentMap : String)
    (positions : Positions) : Obj Player × Bool :=
  match positions.remotePos with
  | some p =>
    let remoteId := trimmedId ++ "_remote"
    if hasPositionChangedSignificantly (players.get remoteId) p then
      (players.set remoteId
        { x := p.x, y := p.y, currentMap := currentMap, color := "#FF0000",
          type := "remote" }, true)
    else (players, false)
  | none => (players, false)

/-- The part of the case `"update"` that runs once `shouldUpdate` has said
yes.  Reading `positions.local.x` when `positions.local` is `null` throws; the
exception is caught by the handler after the stores. -/
def reconcile (s : ServerState) (rand : Rand) (trimmedId : String) (data : Message) :
    Result :=
  let currentMap := strOr data.map "main"
  match processPosition data with
  | some positions =>
    let l := updateLocal s.players rand trimmedId currentMap positions
    let r := updateRemote l.1 trimmedId currentMap positions
    let s2 := { s with players := r.1 }
    if l.2 || r.2 then
      match positions.localPos with
      | some p =>
        { state := s2, out := [Out.broadcast (Payload.update trimmedId p.x p.y currentMap)] }
      | none => { state := s2, errorLogged := true }
    else { state := s2 }
  | none => { state := s }

/-- The case `"update"` of the message handler, for the trimmed id and the
(already scaled) message. -/
def handleUpdate (s : ServerState) (now : Nat) (rand : Rand) (trimmedId : String)
    (data : Message) : Result :=
  let su := shouldUpdate s.lastUpdateTime now trimmedId
  if su.1 then reconcile { s with lastUpdateTime := su.2 } rand trimmedId data
  else { state := s }

/-- The case `"leave"` of the message handler, for the trimmed id.  The test
`players[trimmedId]` holds for an own entry and for an inherited member. -/
def handleLeave (s : ServerState) (trimmedId : String) : Result :=
  if (s.players.get trimmedId).isSome || inherited trimmedId then
    { state := { s with
        players := (s.players.delete trimmedId).delete (trimmedId ++ "_remote")
        lastUpdateTime := s.lastUpdateTime.delete trimmedId },
      out := [Out.broadcast (Payload.disconnect trimmedId)] }
  else { state := s }

/-- The callback of `ws.on("message", ..)` at time `now`. -/
def handleMessage (ctl : ZombieController) (s : ServerState) (now : Nat) (rand : Rand)
    (message : Inbound) : Result :=
  match message with
  | Inbound.malformed => { state := s, errorLogged := true }
  | Inbound.msg raw =>
    let data := scaleGlobal raw
    if data.type = "zombie_game_update" ∨ data.type = "zombie_game_food" then
      let r := processZombieGameMessages ctl s now rand data
      { state := r.1, out := r.2 }
    else
      match data.id with
      | IdField.absent => { state := s }
      | IdField.other => { state := s, errorLogged := true }
      | IdField.str id =>
        let trimmedId := jsTrim id
        if trimmedId = "" then { state := s }
        else if data.type = "join" then handleJoin s rand trimmedId
        else if data.type = "update" then handleUpdate s now rand trimmedId data
        else if data.type = "leave" then handleLeave s trimmedId
        else if data.type = "request_positions" then
          { state := s, out := [Out.send (Payload.positions s.players)] }
        else { state := s }

/-! ## The other entry points and the event loop -/

/-- The callback of `wss.on("connection", ..)`. -/
def handleConnection (s : ServerState) : ServerState :=
  let s1 := initializeZombieGame s
  if s1.zombieGame.isActive then setTimeout s1 Timeout.sync else s1

/-- The body of the `forEach` of the inactivity sweep for one key. -/
def sweepStep (currentTime : Nat) (acc : ServerState × List Out) (playerId : String) :
    ServerState × List Out :=
  match acc.1.lastUpdateTime.get playerId with
  | some t =>
    if (currentTime : ℤ) - (t : ℤ) > 30000 then
      ({ acc.1 with
          players := (acc.1.players.delete playerId).delete (playerId ++ "_remote")
          lastUpdateTime := acc.1.lastUpdateTime.delete playerId },
        acc.2 ++ [Out.broadcast (Payload.disconnect playerId)])
    else acc
  | none => acc

/-- The callback of the 10000 ms inactivity sweep at time `currentTime`. -/
def sweep (s : ServerState) (currentTime : Nat) : ServerState × List Out :=
  (Obj.keys s.lastUpdateTime).foldl (sweepStep currentTime) (s, [])

/-- The pending one-shot callback of handle `h`, if any. -/
def pendingTimeout (s : ServerState) (h : Nat) : Option Timeout :=
  (s.timeouts.find? (fun t => t.1 == h)).map Prod.snd

/-- The run of the one-shot callback of handle `h`. -/
def fireTimeout (s : ServerState) (now : Nat) (h : Nat) : ServerState × List Out :=
  match pendingTimeout s h with
  | none => (s, [])
  | some cb =>
    let s1 := { s with timeouts := s.timeouts.filter (fun t => !(t.1 == h)) }
    match cb with
    | Timeout.restore oldInterval => restoreCallback s1 oldInterval
    | Timeout.sync => (s1, syncZombiesWithAllClients s1 now)
    | Timeout.uncatch playerId =>
      ({ s1 with caughtPlayers := s1.caughtPlayers.filter (fun p => !(p == playerId)) }, [])

/-- What the event loop can run: a new connection, an inbound message, the
close of a connection, a firing of the interval timer `h`, a firing of the
one-shot timer `h`, the inactivity sweep, and the three control routes
`POST /admin/zombie/start`, `POST /admin/zombie/stop` and
`GET /admin/zombie/start-test`. -/
inductive Event where
  | connection
  | message (m : Inbound)
  | close
  | tick (h : Nat)
  | timeout (h : Nat)
  | sweep
  | adminStart (difficulty : Option Nat) (map : Option String)
  | adminStop
  | adminStartTest

/-- The readings of the environment during one event: the clock, the random
draws, and the randomness of the controller. -/
structure Env where
  now : Nat
  rand : Rand
  seed : Nat

/-- One turn of the event loop. -/
def step (ctl : ZombieController) (s : ServerState) (env : Env) : Event → Result
  | Event.connection => { state := handleConnection s }
  | Event.message m => handleMessage ctl s env.now env.rand m
  | Event.close => { state := s }
  | Event.tick h =>
    if s.intervals.any (fun t => t.1 == h) then
      let r := tickCallback ctl s env.now env.seed
      { state := r.1, out := r.2 }
    else { state := s }
  | Event.timeout h =>
    let r := fireTimeout s env.now h
    { state := r.1, out := r.2 }
  | Event.sweep =>
    let r := sweep s env.now
    { state := r.1, out := r.2 }
  | Event.adminStart difficulty map =>
    let r := startZombieGame ctl s env.now env.rand (natOr difficulty 1)
      (strOr map "escom_cafeteria")
    { state := r.1, out := r.2 }
  | Event.adminStop =>
    let r := stopZombieGame s
    { state := r.1, out := r.2 }
  | Event.adminStartTest =>
    let r := startZombieGame ctl s env.now env.rand 1 "escom_cafeteria"
    { state := r.1, out := r.2 }

/-- The state after a sequence of events, from `s`. -/
def run (ctl : ZombieController) (s : ServerState) : List (Env × Event) → ServerState
  | [] => s
  | (env, e) :: rest => run ctl (step ctl s env e).state rest

/-- The states the server can be in. -/
def Reachable (ctl : ZombieController) (s : ServerState) : Prop :=
  ∃ trace : List (Env × Event), run ctl ServerState.init trace = s

/-- The number of broadcasts of type `update` in a list of outputs. -/
def updateBroadcasts (out : List Out) : Nat :=
  out.countP (fun o => match o with
    | Out.broadcast (Payload.update _ _ _ _) => true
    | _ => false)

/-- An `update` message for `id` carrying `x`, `y` and `map`. -/
def updateXY (id : String) (x y : ℚ) (map : Option String) : Message :=
  { type := "update", id := IdField.str id, x := some x, y := some y, map := map }

/-! ## Concrete collaborators for the examples -/

/-- The draw `1/2`. -/
def halfDraw : Draw := ⟨1 / 2, by norm_num, by norm_num⟩

/-- The random stream that always draws `1/2`. -/
def constRand : Rand := fun _ => halfDraw

/-- One unit from `a` toward `b` on one axis. -/
def towards (a b : ℚ) : ℚ :=
  if a < b then a + 1 else if b < a then a - 1 else a

/-- A controller for the examples: every cell is traversable, a chasing hunter
moves one unit toward the player on each axis, a wandering hunter stays, and
the catch test is the box `|dx| ≤ 2`, `|dy| ≤ 2`. -/
def gridController : ZombieController where
  isValidMove := fun _ _ _ => true
  moveZombieTowardsPlayer := fun z p _ => ⟨towards z.position.x p.x, towards z.position.y p.y⟩
  moveZombieRandomly := fun _ z _ => z.position
  isPlayerCaught := fun z p => |z.position.x - p.x| ≤ 2 && |z.position.y - p.y| ≤ 2

/-- The state after `update` for `p1` with `x = 3`, `y = 4` at 1000 ms, from the
initial state. -/
def afterFirstUpdate : ServerState :=
  (handleMessage gridController ServerState.init 1000 constRand
    (Inbound.msg (updateXY "p1" 3 4 none))).state

/-- An `update` message for `id` of the shape `{local?, remote?}`. -/
def updateLR (id : String) (l r : Option Pos) (map : Option String) : Message :=
  { type := "update", id := IdField.str id, localPos := l, remotePos := r, map := map }

/-- The draw `0`. -/
def zeroDraw : Draw := ⟨0, le_refl 0, zero_lt_one⟩

/-- The random stream that always draws `0`. -/
def zeroRand : Rand := fun _ => zeroDraw

/-- The hunter count of a difficulty in `{1, 2, 3}`. -/
def hunterCount (d : Nat) : Nat :=
  if d = 1 then 2 else if d = 2 then 4 else 6

/-- The base tick interval, in ms, of a difficulty in `{1, 2, 3}`. -/
def baseInterval (d : Nat) : Nat :=
  if d = 1 then 1200 else if d = 2 then 800 else 500

/-- The state after `startZombieGame(1)` from the initial state. -/
def startedGame : ServerState :=
  (startZombieGame gridController ServerState.init 0 zeroRand 1 "escom_cafeteria").1

/-- The timer invariant: at most one interval timer that runs
`updateZombiePositions` is live, and every live one is the timer whose handle
is held in `zombieUpdateInterval`. -/
def TimerInv (s : ServerState) : Prop :=
  s.intervals.length ≤ 1 ∧ ∀ t ∈ s.intervals, s.zombieUpdateInterval = some t.1

instance (s : ServerState) : Decidable (TimerInv s) := by
  unfold TimerInv
  infer_instance

/-- The environment of the examples: clock 0, draws 0. -/
def exampleEnv : Env := { now := 0, rand := zeroRand, seed := 0 }

/-- A run for the examples: a control-plane start with difficulty 2, a food
pickup, and the speed restore that the pickup armed. -/
def exampleTrace : List (Env × Event) :=
  [(exampleEnv, Event.adminStart (some 2) none),
   (exampleEnv, Event.message (Inbound.msg { type := "zombie_game_food" })),
   (exampleEnv, Event.timeout 2)]

/-- A state for the examples: an active session on `escom_cafeteria` with one
hunter at `(0, 0)` and the players `a` at `(3, 0)` and `b` at `(1, 0)`. -/
def huntState : ServerState :=
  { ServerState.init with
    players :=
      [("a", { x := 3, y := 0, currentMap := "escom_cafeteria", color := "#0", type := "local" }),
       ("b", { x := 1, y := 0, currentMap := "escom_cafeteria", color := "#0", type := "local" })]
    zombieGame :=
      { zombies := [{ id := "zombie_0", position := ⟨0, 0⟩, target := none, difficulty := 1 }],
        isActive := true, difficulty := 1, currentMap := "escom_cafeteria" } }

/-- A `join` message for `id`. -/
def joinMsg (id : String) : Message :=
  { type := "join", id := IdField.str id }

/-- The state after `join` for `p1`, from the initial state. -/
def joinedState : ServerState :=
  (handleMessage gridController ServerState.init 0 constRand (Inbound.msg (joinMsg "p1"))).state

/-- The state after an `update` for `p1` that carries only `remote = (7, 8)`, at
1000 ms, from the initial state. -/
def remoteOnlyState : ServerState :=
  (handleMessage gridController ServerState.init 1000 constRand
    (Inbound.msg (updateLR "p1" none (some ⟨7, 8⟩) none))).state

/-- The number of `disconnect` broadcasts for `id` in a list of outputs. -/
def disconnectBroadcasts (id : String) (out : List Out) : Nat :=
  out.count (Out.broadcast (Payload.disconnect id))

/-- The number of `caught` commands for `player` in a list of outputs. -/
def caughtBroadcasts (player : String) (out : List Out) : Nat :=
  out.count (Out.broadcast (Payload.command_caught player))

/-- Successive inactivity sweeps at the given clock readings: the state after
the last one and all the outputs. -/
def runSweeps (s : ServerState) : List Nat → ServerState × List Out
  | [] => (s, [])
  | t :: ts => ((runSweeps (sweep s t).1 ts).1, (sweep s t).2 ++ (runSweeps (sweep s t).1 ts).2)

/-- The invariant of the entries of role `remote`: each is stored under a key
`<id>_remote` whose `id` has a timestamp in `lastUpdateTime`. -/
def RemoteInv (s : ServerState) : Prop :=
  ∀ k e, s.players.get k = some e → e.type = "remote" →
    ∃ id, k = id ++ "_remote" ∧ (s.lastUpdateTime.get id).isSome = true

/-- The session invariant: an active session holds a timer handle in
`zombieUpdateInterval`, and the handle of every pending one-shot callback is
below the next handle to be issued. -/
def SessionInv (s : ServerState) : Prop :=
  (s.zombieGame.isActive = true → s.zombieUpdateInterval.isSome = true)
    ∧ ∀ t ∈ s.timeouts, t.1 < s.nextHandle

/-- A `zombie_game_food` message without fields. -/
def foodMsg : Message :=
  { type := "zombie_game_food" }

/-- A run for the examples: `p` reports `(2, 2)` on `escom_cafeteria`, then the
game is started through the route `start-test` with all random draws `0`, which
puts both hunters at `(2, 2)`. -/
def catchTrace : List (Env × Event) :=
  [({ now := 1000, rand := zeroRand, seed := 0 },
      Event.message (Inbound.msg (updateXY "p" 2 2 (some "escom_cafeteria")))),
   (exampleEnv, Event.adminStartTest)]

/-- The state after `catchTrace`. -/
def catchState : ServerState :=
  run gridController ServerState.init catchTrace

/-- The `k`-th candidate coordinate that `findValidPosition` draws when its
first draw has index `idx`. -/
def candidate (rand : Rand) (idx k : Nat) : ℤ × ℤ :=
  (⌊(rand (idx + 2 * k)).val * 35⌋ + 2, ⌊(rand (idx + 2 * k + 1)).val * 35⌋ + 2)

/-- A random stream for the examples: two hundred draws `0`, then `1/2` for ever. -/
def lateRand : Rand := fun i => if i < 200 then zeroDraw else halfDraw

/-- A controller for the examples on whose map only the cells with `x = 19` are
traversable. -/
def pickyController : ZombieController :=
  { gridController with isValidMove := fun x _ _ => decide (x = 19) }

/-- A controller for the examples on whose maps no cell is traversable. -/
def wallController : ZombieController :=
  { gridController with isValidMove := fun _ _ _ => false }

/-! ## Lemmas on dictionaries -/


theorem Obj.get_replace_self {α : Type} (o : Obj α) (k : String) (v : α)
    (h : o.has k = true) : (o.replace k v).get k = some v := by
  induction o with
  | nil => simp [Obj.has, Obj.get] at h
  | cons e rest ih =>
    obtain ⟨k', v'⟩ := e
    by_cases hk : k' = k
    · simp [Obj.replace, Obj.get, hk]
    · have h' : Obj.has rest k = true := by
        simpa [Obj.has, Obj.get, hk] using h
      simp [Obj.replace, Obj.get, hk, ih h']

theorem Obj.get_replace_ne {α : Type} (o : Obj α) (k k' : String) (v : α)
    (h : k' ≠ k) : (o.replace k v).get k' = o.get k' := by
  induction o with
  | nil => rfl
  | cons e rest ih =>
    obtain ⟨k0, v0⟩ := e
    have h1 : ¬ k = k' := fun hh => h hh.symm
    by_cases hk : k0 = k
    · subst hk
      simp [Obj.replace, Obj.get, h1]
    · by_cases hk' : k0 = k'
      · subst hk'
        simp [Obj.replace, Obj.get, hk]
      · simp [Obj.replace, Obj.get, hk, hk', ih]

theorem Obj.get_insertIndex {α : Type} (o : Obj α) (n : Nat) (k k' : String) (v : α)
    (h : o.get k = none) :
    (o.insertIndex n k v).get k' = if k' = k then some v else o.get k' := by
  induction o with
  | nil =>
    by_cases hk : k = k'
    · simp [Obj.insertIndex, Obj.get, hk]
    · have : ¬ k' = k := fun hh => hk hh.symm
      simp [Obj.insertIndex, Obj.get, hk, this]
  | cons e rest ih =>
    obtain ⟨k0, v0⟩ := e
    have hk0 : ¬ k0 = k := by
      intro hh
      simp [Obj.get, hh] at h
    have hrest : Obj.get rest k = none := by
      simpa [Obj.get, hk0] using h
    have key : Obj.get ((k, v) :: (k0, v0) :: rest) k'
        = if k' = k then some v else Obj.get ((k0, v0) :: rest) k' := by
      by_cases hk : k = k'
      · simp [Obj.get, hk]
      · have : ¬ k' = k := fun hh => hk hh.symm
        simp [Obj.get, hk, this]
    unfold Obj.insertIndex
    cases hidx : arrayIndex? k0 with
    | none => simpa using key
    | some m =>
      by_cases hnm : n < m
      · simpa [hnm] using key
      · simp only [hnm, if_false]
        by_cases hk' : k0 = k'
        · have : ¬ k' = k := fun hh => hk0 (hk'.trans hh)
          simp [Obj.get, hk', this]
        · simp [Obj.get, hk', ih hrest]

theorem Obj.get_append_single {α : Type} (o : Obj α) (k k' : String) (v : α)
    (h : o.get k = none) :
    (o ++ [(k, v)]).get k' = if k' = k then some v else o.get k' := by
  induction o with
  | nil =>
    by_cases hk : k = k'
    · simp [Obj.get, hk]
    · have : ¬ k' = k := fun hh => hk hh.symm
      simp [Obj.get, hk, this]
  | cons e rest ih =>
    obtain ⟨k0, v0⟩ := e
    have hk0 : ¬ k0 = k := by
      intro hh
      simp [Obj.get, hh] at h
    have hrest : Obj.get rest k = none := by
      simpa [Obj.get, hk0] using h
    by_cases hk' : k0 = k'
    · have : ¬ k' = k := fun hh => hk0 (hk'.trans hh)
      simp [Obj.get, hk', this]
    · simpa [Obj.get, hk'] using ih hrest

/-- Reading after a write: `o[k] = v` makes `o[k]` be `v` and leaves every
other property as it was. -/
theorem Obj.get_set {α : Type} (o : Obj α) (k k' : String) (v : α) :
    (o.set k v).get k' = if k' = k then some v else o.get k' := by
  unfold Obj.set
  by_cases hhas : o.has k = true
  · simp only [hhas, if_true]
    by_cases hk : k' = k
    · subst hk
      simp [Obj.get_replace_self o k' v hhas]
    · simp [hk, Obj.get_replace_ne o k k' v hk]
  · have hnone : o.get k = none := by
      simpa [Obj.has] using hhas
    simp only [hhas]
    cases arrayIndex? k with
    | none => simpa using Obj.get_append_single o k k' v hnone
    | some n => simpa using Obj.get_insertIndex o n k k' v hnone

theorem Obj.get_delete {α : Type} (o : Obj α) (k k' : String) :
    (o.delete k).get k' = if k' = k then none else o.get k' := by
  induction o with
  | nil => simp [Obj.delete, Obj.get]
  | cons e rest ih =>
    obtain ⟨k0, v0⟩ := e
    unfold Obj.delete at ih ⊢
    by_cases hk0 : k0 = k
    · subst hk0
      by_cases hk : k' = k0
      · simpa [List.filter_cons, hk] using ih
      · have : ¬ k0 = k' := fun hh => hk hh.symm
        simpa [List.filter_cons, hk, Obj.get, this] using ih
    · by_cases hk' : k0 = k'
      · subst hk'
        simp [List.filter_cons, hk0, Obj.get]
      · simpa [List.filter_cons, hk0, Obj.get, hk'] using ih

/-! ## The update path of the message handler -/


theorem scaleGlobal_type (data : Message) : (scaleGlobal data).type = data.type := by
  unfold scaleGlobal
  split <;> rfl

theorem scaleGlobal_id (data : Message) : (scaleGlobal data).id = data.id := by
  unfold scaleGlobal
  split <;> rfl

theorem scaleGlobal_map (data : Message) : (scaleGlobal data).map = data.map := by
  unfold scaleGlobal
  split <;> rfl

/-- An `update` message with a usable id is handled by the case `"update"`. -/
theorem handleMessage_update (ctl : ZombieController) (s : ServerState) (now : Nat)
    (rand : Rand) (data : Message) (id : String) (htype : data.type = "update")
    (hid : data.id = IdField.str id) (hne : jsTrim id ≠ "") :
    handleMessage ctl s now rand (Inbound.msg data)
      = handleUpdate s now rand (jsTrim id) (scaleGlobal data) := by
  simp [handleMessage, scaleGlobal_type, scaleGlobal_id, htype, hid, hne]

theorem handleUpdate_rejected (s : ServerState) (now : Nat) (rand : Rand) (id : String)
    (data : Message) (h : (shouldUpdate s.lastUpdateTime now id).1 = false) :
    handleUpdate s now rand id data = { state := s } := by
  simp [handleUpdate, h]

theorem handleUpdate_accepted (s : ServerState) (now : Nat) (rand : Rand) (id : String)
    (data : Message) (h : (shouldUpdate s.lastUpdateTime now id).1 = true) :
    handleUpdate s now rand id data
      = reconcile { s with lastUpdateTime := (shouldUpdate s.lastUpdateTime now id).2 }
          rand id data := by
  simp [handleUpdate, h]

theorem reconcile_lastUpdateTime (s : ServerState) (rand : Rand) (id : String)
    (data : Message) : (reconcile s rand id data).state.lastUpdateTime = s.lastUpdateTime := by
  unfold reconcile
  split
  · simp only
    split
    · split <;> rfl
    · rfl
  · rfl

theorem updateBroadcasts_reconcile_le (s : ServerState) (rand : Rand) (id : String)
    (data : Message) : updateBroadcasts (reconcile s rand id data).out ≤ 1 := by
  unfold reconcile
  split
  · simp only
    split
    · split <;> simp [updateBroadcasts]
    · simp [updateBroadcasts]
  · simp [updateBroadcasts]

theorem shouldUpdate_rejected (l : Obj Nat) (now : Nat) (id : String)
    (h : (shouldUpdate l now id).1 = false) : (shouldUpdate l now id).2 = l := by
  unfold shouldUpdate at h ⊢
  split
  · split
    · rfl
    · simp_all
  · split
    · simp_all
    · rfl

theorem handleUpdate_lastUpdateTime (s : ServerState) (now : Nat) (rand : Rand)
    (id : String) (data : Message) :
    (handleUpdate s now rand id data).state.lastUpdateTime
      = (shouldUpdate s.lastUpdateTime now id).2 := by
  cases hsu : (shouldUpdate s.lastUpdateTime now id).1 with
  | false =>
    rw [handleUpdate_rejected _ _ _ _ _ hsu, shouldUpdate_rejected _ _ _ hsu]
  | true =>
    rw [handleUpdate_accepted _ _ _ _ _ hsu, reconcile_lastUpdateTime]

theorem shouldUpdate_accepted (l : Obj Nat) (now : Nat) (id : String)
    (h : (shouldUpdate l now id).1 = true) :
    (shouldUpdate l now id).2.get id = some now := by
  unfold shouldUpdate at h ⊢
  split
  · split
    · simp_all
    · simp [Obj.get_set]
  · split
    · simp [Obj.get_set]
    · simp_all

theorem updateBroadcasts_handleUpdate_le (s : ServerState) (now : Nat) (rand : Rand)
    (id : String) (data : Message) :
    updateBroadcasts (handleUpdate s now rand id data).out ≤ 1 := by
  cases hsu : (shouldUpdate s.lastUpdateTime now id).1 with
  | false =>
    rw [handleUpdate_rejected _ _ _ _ _ hsu]
    simp [updateBroadcasts]
  | true =>
    rw [handleUpdate_accepted _ _ _ _ _ hsu]
    exact updateBroadcasts_reconcile_le _ _ _ _

/-- C1, amended (throttle): two `update` messages for one player id, handled at
clock readings `t1 < t2` less than 50 ms apart, with the timestamp of that id
untouched in between (no other update for it, no `leave` for it, no sweep of
it): at most one of them passes `shouldUpdate`, at most one of them changes
`players`, and together they emit at most one `update` broadcast. -/
theorem C1_throttle_at_most_one (ctl : ZombieController) (s s' : ServerState)
    (t1 t2 : Nat) (rand1 rand2 : Rand) (m1 m2 : Message) (id1 id2 : String)
    (htype1 : m1.type = "update") (htype2 : m2.type = "update")
    (hid1 : m1.id = IdField.str id1) (hid2 : m2.id = IdField.str id2)
    (hsame : jsTrim id2 = jsTrim id1) (hne : jsTrim id1 ≠ "")
    (hpos : 0 < t1) (_hlt : t1 < t2) (hclose : t2 - t1 < 50)
    (hbetween : s'.lastUpdateTime.get (jsTrim id1)
      = (handleMessage ctl s t1 rand1 (Inbound.msg m1)).state.lastUpdateTime.get (jsTrim id1)) :
    ((shouldUpdate s.lastUpdateTime t1 (jsTrim id1)).1 = false
        ∨ (shouldUpdate s'.lastUpdateTime t2 (jsTrim id1)).1 = false)
      ∧ ((handleMessage ctl s t1 rand1 (Inbound.msg m1)).state.players = s.players
        ∨ (handleMessage ctl s' t2 rand2 (Inbound.msg m2)).state.players = s'.players)
      ∧ updateBroadcasts (handleMessage ctl s t1 rand1 (Inbound.msg m1)).out
          + updateBroadcasts (handleMessage ctl s' t2 rand2 (Inbound.msg m2)).out ≤ 1 := by
  have hne2 : jsTrim id2 ≠ "" := by rw [hsame]; exact hne
  rw [handleMessage_update ctl s t1 rand1 m1 id1 htype1 hid1 hne] at hbetween ⊢
  rw [handleMessage_update ctl s' t2 rand2 m2 id2 htype2 hid2 hne2, hsame]
  cases h1 : (shouldUpdate s.lastUpdateTime t1 (jsTrim id1)).1 with
  | false =>
    have e1 := handleUpdate_rejected s t1 rand1 (jsTrim id1) (scaleGlobal m1) h1
    refine ⟨Or.inl rfl, Or.inl (by rw [e1]), ?_⟩
    have := updateBroadcasts_handleUpdate_le s' t2 rand2 (jsTrim id1) (scaleGlobal m2)
    rw [e1]
    simpa [updateBroadcasts] using this
  | true =>
    rw [handleUpdate_lastUpdateTime, shouldUpdate_accepted _ _ _ h1] at hbetween
    have h2 : (shouldUpdate s'.lastUpdateTime t2 (jsTrim id1)).1 = false := by
      unfold shouldUpdate
      rw [hbetween]
      have hz : ¬ t1 = 0 := by omega
      have hd : ¬ ((t2 : ℤ) - (t1 : ℤ) ≥ 50) := by omega
      simp [hz, hd]
    have e2 := handleUpdate_rejected s' t2 rand2 (jsTrim id1) (scaleGlobal m2) h2
    refine ⟨Or.inr h2, Or.inr (by rw [e2]), ?_⟩
    have := updateBroadcasts_handleUpdate_le s t1 rand1 (jsTrim id1) (scaleGlobal m1)
    rw [e2]
    simpa [updateBroadcasts] using this

/-- C1, as stated, fails: `update` for `p1` at 1000 ms, `leave` for `p1` at
1010 ms, `update` for `p1` at 1020 ms.  The `leave` deletes the timestamp, so
both updates pass `shouldUpdate` and each is broadcast. -/
theorem C1_counterexample :
    (shouldUpdate ServerState.init.lastUpdateTime 1000 (jsTrim "p1")).1 = true
      ∧ (shouldUpdate (handleMessage gridController afterFirstUpdate 1010 constRand
          (Inbound.msg { type := "leave", id := IdField.str "p1" })).state.lastUpdateTime
            1020 (jsTrim "p1")).1 = true
      ∧ updateBroadcasts (handleMessage gridController ServerState.init 1000 constRand
            (Inbound.msg (updateXY "p1" 3 4 none))).out
          + updateBroadcasts (handleMessage gridController
              (handleMessage gridController afterFirstUpdate 1010 constRand
                (Inbound.msg { type := "leave", id := IdField.str "p1" })).state 1020
              constRand (Inbound.msg (updateXY "p1" 5 6 none))).out = 2 := by
  decide

/-- C1 amended, at an instance: from the initial state, `update` for `p1` at
1000 ms and again at 1020 ms. -/
theorem C1_throttle_at_most_one_witness :
    ((shouldUpdate ServerState.init.lastUpdateTime 1000 (jsTrim "p1")).1 = false
        ∨ (shouldUpdate (handleMessage gridController ServerState.init 1000 constRand
            (Inbound.msg (updateXY "p1" 3 4 none))).state.lastUpdateTime 1020
              (jsTrim "p1")).1 = false)
      ∧ ((handleMessage gridController ServerState.init 1000 constRand
            (Inbound.msg (updateXY "p1" 3 4 none))).state.players = ServerState.init.players
        ∨ (handleMessage gridController
            (handleMessage gridController ServerState.init 1000 constRand
              (Inbound.msg (updateXY "p1" 3 4 none))).state 1020 constRand
            (Inbound.msg (updateXY "p1" 5 6 none))).state.players
          = (handleMessage gridController ServerState.init 1000 constRand
              (Inbound.msg (updateXY "p1" 3 4 none))).state.players)
      ∧ updateBroadcasts (handleMessage gridController ServerState.init 1000 constRand
            (Inbound.msg (updateXY "p1" 3 4 none))).out
          + updateBroadcasts (handleMessage gridController
              (handleMessage gridController ServerState.init 1000 constRand
                (Inbound.msg (updateXY "p1" 3 4 none))).state 1020 constRand
              (Inbound.msg (updateXY "p1" 5 6 none))).out ≤ 1 :=
  C1_throttle_at_most_one gridController ServerState.init _ 1000 1020 constRand constRand
    (updateXY "p1" 3 4 none) (updateXY "p1" 5 6 none) "p1" "p1" rfl rfl rfl rfl rfl
    (by decide) (by decide) (by decide) (by decide) rfl

theorem jsTrim_p1_ne : jsTrim "p1" ≠ "" := by decide

/-- C2, as stated, fails: with `p1` stored at `(3, 4)`, an `update` carrying
`x = 5`, `y = 6` that arrives 20 ms after the accepted one emits no broadcast,
and an `update` whose `local` is `(3, 4)` again but whose `remote` is new emits
one broadcast. -/
theorem C2_counterexample :
    (afterFirstUpdate.players.get "p1").map (fun p => (p.x, p.y)) = some (3, 4)
      ∧ updateBroadcasts (handleMessage gridController afterFirstUpdate 1020 constRand
          (Inbound.msg (updateXY "p1" 5 6 none))).out = 0
      ∧ updateBroadcasts (handleMessage gridController afterFirstUpdate 2000 constRand
          (Inbound.msg (updateLR "p1" (some ⟨3, 4⟩) (some ⟨7, 8⟩) none))).out = 1 := by
  decide

/-- C2, amended: an `update` for an id with a stored local entry `prev` that
passes the throttle gate and carries the local position `p` (in either payload
shape, after the scaling of the map `global`).  If `p` equals the stored
position and no `remote` of the payload differs from the stored
`<id>_remote`, nothing is sent; if `p.x` or `p.y` differs from the stored
value, the output is exactly one `update` broadcast. -/
theorem C2_change_significance (ctl : ZombieController) (s : ServerState) (now : Nat)
    (rand : Rand) (m : Message) (id : String) (prev : Player) (positions : Positions)
    (p : Pos) (htype : m.type = "update") (hid : m.id = IdField.str id)
    (hne : jsTrim id ≠ "")
    (hthrottle : (shouldUpdate s.lastUpdateTime now (jsTrim id)).1 = true)
    (hstored : s.players.get (jsTrim id) = some prev)
    (hshape : processPosition (scaleGlobal m) = some positions)
    (hlocal : positions.localPos = some p) :
    ((prev.x = p.x ∧ prev.y = p.y
        ∧ ∀ q, positions.remotePos = some q →
            hasPositionChangedSignificantly (s.players.get (jsTrim id ++ "_remote")) q = false)
      → (handleMessage ctl s now rand (Inbound.msg m)).out = [])
    ∧ ((prev.x ≠ p.x ∨ prev.y ≠ p.y)
      → (handleMessage ctl s now rand (Inbound.msg m)).out
          = [Out.broadcast (Payload.update (jsTrim id) p.x p.y (strOr m.map "main"))]) := by
  rw [handleMessage_update ctl s now rand m id htype hid hne,
    handleUpdate_accepted _ _ _ _ _ hthrottle]
  constructor
  · rintro ⟨hx, hy, hremote⟩
    have hl : updateLocal s.players rand (jsTrim id) (strOr m.map "main") positions
        = (s.players, false) := by
      simp [updateLocal, hlocal, hstored, hasPositionChangedSignificantly, hx, hy]
    have hr : (updateRemote s.players (jsTrim id) (strOr m.map "main") positions).2
        = false := by
      unfold updateRemote
      cases hq : positions.remotePos with
      | none => rfl
      | some q => simp [hremote q hq]
    simp [reconcile, hshape, scaleGlobal_map, hl, hr]
  · intro hdiff
    have hl : (updateLocal s.players rand (jsTrim id) (strOr m.map "main") positions).2
        = true := by
      have : hasPositionChangedSignificantly (some prev) p = true := by
        rcases hdiff with h | h <;> simp [hasPositionChangedSignificantly, h]
      simp [updateLocal, hlocal, hstored, this]
    simp [reconcile, hshape, scaleGlobal_map, hl, hlocal]

/-- C2 amended, at an instance: `p1` stored at `(3, 4)`, an `update` with
`x = 5`, `y = 6` one second later. -/
theorem C2_change_significance_witness :
    (handleMessage gridController afterFirstUpdate 2000 constRand
        (Inbound.msg (updateXY "p1" 5 6 none))).out
      = [Out.broadcast (Payload.update (jsTrim "p1") 5 6 "main")] :=
  (C2_change_significance gridController afterFirstUpdate 2000 constRand
    (updateXY "p1" 5 6 none) "p1"
    { x := 3, y := 4, currentMap := "main", color := generateRandomColor halfDraw,
      type := "local" }
    { localPos := some ⟨5, 6⟩, remotePos := none } ⟨5, 6⟩ rfl rfl jsTrim_p1_ne
    (by decide) (by rfl) (by rfl) rfl).2 (Or.inl (by decide))

/-- C3, evaluated where it fails: with `p1` stored, an `update` that carries
only `remote = (7, 8)` passes the throttle gate and stores `p1_remote`, then
throws on `positions.local.x`; the handler logs the error and no broadcast is
sent. -/
theorem C3_remote_only_no_broadcast :
    (shouldUpdate afterFirstUpdate.lastUpdateTime 2000 (jsTrim "p1")).1 = true
      ∧ afterFirstUpdate.players.get "p1_remote" = none
      ∧ (handleMessage gridController afterFirstUpdate 2000 constRand
          (Inbound.msg (updateLR "p1" none (some ⟨7, 8⟩) none))).state.players.get "p1_remote"
        = some { x := 7, y := 8, currentMap := "main", color := "#FF0000", type := "remote" }
      ∧ (handleMessage gridController afterFirstUpdate 2000 constRand
          (Inbound.msg (updateLR "p1" none (some ⟨7, 8⟩) none))).out = []
      ∧ (handleMessage gridController afterFirstUpdate 2000 constRand
          (Inbound.msg (updateLR "p1" none (some ⟨7, 8⟩) none))).errorLogged = true := by
  decide

/-! ## Join -/

/-- A `join` message with a usable id is handled by the case `"join"`. -/
theorem handleMessage_join (ctl : ZombieController) (s : ServerState) (now : Nat)
    (rand : Rand) (data : Message) (id : String) (htype : data.type = "join")
    (hid : data.id = IdField.str id) (hne : jsTrim id ≠ "") :
    handleMessage ctl s now rand (Inbound.msg data) = handleJoin s rand (jsTrim id) := by
  simp [handleMessage, scaleGlobal_type, scaleGlobal_id, htype, hid, hne]

theorem handleJoin_present (s : ServerState) (rand : Rand) (id : String) (p : Player)
    (h : s.players.get id = some p) : handleJoin s rand id = { state := s } := by
  simp [handleJoin, h]

/-- A `join` for an id for which `players[id]` is truthy does nothing. -/
theorem handleJoin_truthy (s : ServerState) (rand : Rand) (id : String)
    (h : ((s.players.get id).isSome || inherited id) = true) :
    handleJoin s rand id = { state := s } := by
  simp only [handleJoin, h, if_true]

/-- After a `join` for `id`, `players[id]` is truthy. -/
theorem handleJoin_then_truthy (s : ServerState) (rand : Rand) (id : String) :
    (((handleJoin s rand id).state.players.get id).isSome || inherited id) = true := by
  by_cases h : ((s.players.get id).isSome || inherited id) = true
  · rw [handleJoin_truthy s rand id h]
    exact h
  · simp only [handleJoin, h, if_false]
    simp [Obj.get_set]

/-- C4 (join idempotence): handling `join` for a non-blank id a second time,
at any later clock reading and with any random draws, leaves the state (the
player registry included) as the first `join` left it and sends nothing; and a
`join` for an id that already has an entry leaves the whole state, so the
entry's position, map and color and every other entry, unchanged. -/
theorem C4_join_idempotent (ctl : ZombieController) (s : ServerState) (now1 now2 : Nat)
    (rand1 rand2 : Rand) (m : Message) (id : String) (htype : m.type = "join")
    (hid : m.id = IdField.str id) (hne : jsTrim id ≠ "") :
    (handleMessage ctl (handleMessage ctl s now1 rand1 (Inbound.msg m)).state now2 rand2
        (Inbound.msg m)).state.players
      = (handleMessage ctl s now1 rand1 (Inbound.msg m)).state.players
    ∧ (handleMessage ctl (handleMessage ctl s now1 rand1 (Inbound.msg m)).state now2 rand2
        (Inbound.msg m)).state
      = (handleMessage ctl s now1 rand1 (Inbound.msg m)).state
    ∧ ∀ p, s.players.get (jsTrim id) = some p →
        (handleMessage ctl s now1 rand1 (Inbound.msg m)).state = s := by
  rw [handleMessage_join ctl s now1 rand1 m id htype hid hne,
    handleMessage_join ctl _ now2 rand2 m id htype hid hne]
  have hp := handleJoin_then_truthy s rand1 (jsTrim id)
  refine ⟨?_, ?_, ?_⟩
  · rw [handleJoin_truthy _ rand2 _ hp]
  · rw [handleJoin_truthy _ rand2 _ hp]
  · intro q hq
    rw [handleJoin_present s rand1 _ q hq]

/-- C4, at an instance: `join` for `p1` twice from the initial state. -/
theorem C4_join_idempotent_witness :
    (handleMessage gridController
        (handleMessage gridController ServerState.init 0 constRand
          (Inbound.msg { type := "join", id := IdField.str "p1" })).state 10 constRand
        (Inbound.msg { type := "join", id := IdField.str "p1" })).state.players
      = (handleMessage gridController ServerState.init 0 constRand
          (Inbound.msg { type := "join", id := IdField.str "p1" })).state.players :=
  (C4_join_idempotent gridController ServerState.init 0 10 constRand constRand
    { type := "join", id := IdField.str "p1" } "p1" rfl rfl jsTrim_p1_ne).1

/-! ## Scaling of the map `global` -/

theorem updateLocal_get (players : Obj Player) (rand : Rand) (id map : String)
    (positions : Positions) (p : Pos) (h : positions.localPos = some p) :
    ((updateLocal players rand id map positions).1.get id).map (fun e => (e.x, e.y))
      = some (p.x, p.y) := by
  unfold updateLocal
  rw [h]
  simp only
  split
  · simp [Obj.get_set]
  · rename_i hch
    cases hprev : players.get id with
    | none => simp [hasPositionChangedSignificantly, hprev] at hch
    | some prev =>
      simp [hasPositionChangedSignificantly, hprev] at hch
      simp [hch.1, hch.2]

theorem reconcile_players_local_only (s : ServerState) (rand : Rand) (id : String)
    (data : Message) (p : Pos)
    (h : processPosition data = some { localPos := some p, remotePos := none }) :
    (reconcile s rand id data).state.players
      = (updateLocal s.players rand id (strOr data.map "main")
          { localPos := some p, remotePos := none }).1 := by
  unfold reconcile
  rw [h]
  simp only [updateRemote]
  split <;> rfl

/-- C5 (scaling of the map `global`): after an `update` with numeric `x` and
`y` that passes the throttle gate, the position stored for the id is
`(x / 1000000, y / 1000000)` when the map is `"global"` and `(x, y)` for every
other map value. -/
theorem C5_global_scaling (ctl : ZombieController) (s : ServerState) (now : Nat)
    (rand : Rand) (m : Message) (id : String) (x y : ℚ) (htype : m.type = "update")
    (hid : m.id = IdField.str id) (hne : jsTrim id ≠ "") (hx : m.x = some x)
    (hy : m.y = some y)
    (hthrottle : (shouldUpdate s.lastUpdateTime now (jsTrim id)).1 = true) :
    (((handleMessage ctl s now rand (Inbound.msg m)).state.players.get (jsTrim id)).map
        (fun e => (e.x, e.y)))
      = some (if m.map = some "global" then (x / 1000000, y / 1000000) else (x, y)) := by
  rw [handleMessage_update ctl s now rand m id htype hid hne,
    handleUpdate_accepted _ _ _ _ _ hthrottle]
  by_cases hg : m.map = some "global"
  · have hshape : processPosition (scaleGlobal m)
        = some { localPos := some ⟨x / 1000000, y / 1000000⟩, remotePos := none } := by
      simp [processPosition, scaleGlobal, htype, hg, hx, hy]
    rw [reconcile_players_local_only _ _ _ _ _ hshape, updateLocal_get _ _ _ _ _ _ rfl]
    simp [hg]
  · have hshape : processPosition (scaleGlobal m)
        = some { localPos := some ⟨x, y⟩, remotePos := none } := by
      simp [processPosition, scaleGlobal, htype, hg, hx, hy]
    rw [reconcile_players_local_only _ _ _ _ _ hshape, updateLocal_get _ _ _ _ _ _ rfl]
    simp [hg]

/-- C5, at the instance of the spec: `map = "global"`, `x = 2000000`,
`y = 500000` is stored as `(2, 1/2)`. -/
theorem C5_global_scaling_witness :
    (((handleMessage gridController ServerState.init 1000 constRand
        (Inbound.msg (updateXY "p1" 2000000 500000 (some "global")))).state.players.get
          (jsTrim "p1")).map (fun e => (e.x, e.y))) = some (2, 1 / 2) := by
  have h := C5_global_scaling gridController ServerState.init 1000 constRand
    (updateXY "p1" 2000000 500000 (some "global")) "p1" 2000000 500000 rfl rfl
    jsTrim_p1_ne rfl rfl (by decide)
  rw [h]
  norm_num [updateXY]

/-! ## Start and stop of the zombie game -/


theorem spawnZombies_length (ctl : ZombieController) (mapName : String) (d : Nat)
    (rand : Rand) (n i idx : Nat) :
    (spawnZombies ctl mapName d rand n i idx).length = n := by
  induction n generalizing i idx with
  | zero => rfl
  | succ n ih => simp [spawnZombies, ih]

theorem spawnZombies_ids (ctl : ZombieController) (mapName : String) (d : Nat)
    (rand : Rand) (n i idx : Nat) :
    (spawnZombies ctl mapName d rand n i idx).map Zombie.id
      = (List.range' i n).map (fun j => "zombie_" ++ toString j) := by
  induction n generalizing i idx with
  | zero => rfl
  | succ n ih => simp [spawnZombies, ih, List.range'_succ]

theorem spawnZombies_tags (ctl : ZombieController) (mapName : String) (d : Nat)
    (rand : Rand) (n i idx : Nat) :
    ∀ z ∈ spawnZombies ctl mapName d rand n i idx, z.difficulty = d ∧ z.target = none := by
  induction n generalizing i idx with
  | zero => simp [spawnZombies]
  | succ n ih =>
    intro z hz
    simp only [spawnZombies, List.mem_cons] at hz
    rcases hz with h | h
    · subst h
      exact ⟨rfl, rfl⟩
    · exact ih _ _ z h

theorem startZombieUpdates_zombieGame (s : ServerState) :
    (startZombieUpdates s).zombieGame = s.zombieGame := by
  unfold startZombieUpdates
  cases s.zombieUpdateInterval <;> rfl

theorem startZombieUpdates_slot (s : ServerState) :
    (startZombieUpdates s).zombieUpdateInterval = some s.nextHandle := by
  unfold startZombieUpdates
  cases s.zombieUpdateInterval <;> rfl

theorem startZombieUpdates_installed (s : ServerState) :
    (s.nextHandle, some ((updateIntervals s.zombieGame.difficulty).getD 1000))
      ∈ (startZombieUpdates s).intervals := by
  unfold startZombieUpdates
  cases s.zombieUpdateInterval <;> simp [setInterval, clearInterval]

/-- C6 (start from idle): for a difficulty `d` in `{1, 2, 3}`,
`startZombieGame(d, map)` on an idle session leaves it active with difficulty
`d` and map `map`, with exactly `hunterCount d` (2, 4, 6) zombies whose ids
are pairwise distinct, each tagged with `d` and a null target, and the handle
in `zombieUpdateInterval` is that of a live timer of period `baseInterval d`
(1200, 800, 500). -/
theorem C6_start_from_idle (ctl : ZombieController) (s : ServerState) (now : Nat)
    (rand : Rand) (d : Nat) (map : String) (hidle : s.zombieGame.isActive = false)
    (hd : d = 1 ∨ d = 2 ∨ d = 3) :
    (startZombieGame ctl s now rand d map).1.zombieGame.isActive = true
      ∧ (startZombieGame ctl s now rand d map).1.zombieGame.difficulty = d
      ∧ (startZombieGame ctl s now rand d map).1.zombieGame.currentMap = map
      ∧ (startZombieGame ctl s now rand d map).1.zombieGame.zombies.length = hunterCount d
      ∧ ((startZombieGame ctl s now rand d map).1.zombieGame.zombies.map Zombie.id).Nodup
      ∧ (∀ z ∈ (startZombieGame ctl s now rand d map).1.zombieGame.zombies,
          z.difficulty = d ∧ z.target = none)
      ∧ ∃ h, (startZombieGame ctl s now rand d map).1.zombieUpdateInterval = some h
          ∧ (h, some (baseInterval d)) ∈ (startZombieGame ctl s now rand d map).1.intervals := by
  have hstart : (startZombieGame ctl s now rand d map).1
      = startZombieUpdates { s with zombieGame :=
          { zombies := spawnZombies ctl map d rand ((zombieCount d).getD 2) 0 0,
            isActive := true, difficulty := d, currentMap := map } } := by
    simp [startZombieGame, hidle]
  rw [hstart]
  have hcount : (zombieCount d).getD 2 = hunterCount d := by
    rcases hd with h | h | h <;> subst h <;> rfl
  have hint : (updateIntervals d).getD 1000 = baseInterval d := by
    rcases hd with h | h | h <;> subst h <;> rfl
  refine ⟨?_, ?_, ?_, ?_, ?_, ?_, ?_⟩
  · rw [startZombieUpdates_zombieGame]
  · rw [startZombieUpdates_zombieGame]
  · rw [startZombieUpdates_zombieGame]
  · rw [startZombieUpdates_zombieGame]
    simp only [spawnZombies_length, hcount]
  · rw [startZombieUpdates_zombieGame]
    simp only [spawnZombies_ids, hcount]
    rcases hd with h | h | h <;> subst h <;> decide
  · rw [startZombieUpdates_zombieGame]
    exact spawnZombies_tags _ _ _ _ _ _ _
  · refine ⟨s.nextHandle, startZombieUpdates_slot _, ?_⟩
    have := startZombieUpdates_installed { s with zombieGame :=
      { zombies := spawnZombies ctl map d rand ((zombieCount d).getD 2) 0 0,
        isActive := true, difficulty := d, currentMap := map } }
    simpa [hint] using this

/-- C6, at the instance of the spec: a start with difficulty 3 from the initial
state gives 6 zombies and a tick schedule of 500 ms. -/
theorem C6_start_from_idle_witness :
    (startZombieGame gridController ServerState.init 0 zeroRand 3
        "escom_cafeteria").1.zombieGame.zombies.length = 6
      ∧ ∃ h, (startZombieGame gridController ServerState.init 0 zeroRand 3
            "escom_cafeteria").1.zombieUpdateInterval = some h
          ∧ (h, some 500) ∈ (startZombieGame gridController ServerState.init 0 zeroRand 3
            "escom_cafeteria").1.intervals :=
  ⟨(C6_start_from_idle gridController ServerState.init 0 zeroRand 3 "escom_cafeteria" rfl
      (Or.inr (Or.inr rfl))).2.2.2.1,
    (C6_start_from_idle gridController ServerState.init 0 zeroRand 3 "escom_cafeteria" rfl
      (Or.inr (Or.inr rfl))).2.2.2.2.2.2⟩

/-- The batch that `syncZombiesWithAllClients` broadcasts at time `now`. -/
theorem syncZombiesWithAllClients_active (s : ServerState) (now : Nat)
    (h : s.zombieGame.isActive = true) :
    syncZombiesWithAllClients s now
      = [Out.broadcast (Payload.zombie_position_batch (zombieData s.zombieGame.zombies)
          s.zombieGame.currentMap s.zombieGame.difficulty now)] := by
  simp [syncZombiesWithAllClients, h]

/-- C7 (idempotent start): on an active session, `startZombieGame`, with any
difficulty and map, and a `zombie_game_update` message with action `start`
both leave the whole state (zombies, difficulty, map, active flag, timer slot
and timers) unchanged and emit exactly one `zombie_position_batch` broadcast
and nothing else. -/
theorem C7_start_idempotent (ctl : ZombieController) (s : ServerState) (now : Nat)
    (rand : Rand) (d : Nat) (map : String) (m : Message)
    (hactive : s.zombieGame.isActive = true) (htype : m.type = "zombie_game_update")
    (haction : m.action = some "start") :
    startZombieGame ctl s now rand d map
        = (s, [Out.broadcast (Payload.zombie_position_batch (zombieData s.zombieGame.zombies)
            s.zombieGame.currentMap s.zombieGame.difficulty now)])
      ∧ (handleMessage ctl s now rand (Inbound.msg m)).state = s
      ∧ (handleMessage ctl s now rand (Inbound.msg m)).out
          = [Out.broadcast (Payload.zombie_position_batch (zombieData s.zombieGame.zombies)
              s.zombieGame.currentMap s.zombieGame.difficulty now)] := by
  have hsync := syncZombiesWithAllClients_active s now hactive
  have hscale : scaleGlobal m = m := by
    simp [scaleGlobal, htype]
  refine ⟨?_, ?_, ?_⟩
  · simp [startZombieGame, hactive, hsync]
  · simp [handleMessage, hscale, htype, processZombieGameMessages, haction, hactive]
  · simp [handleMessage, hscale, htype, processZombieGameMessages, haction, hactive, hsync]

/-- C7, at an instance: a second start, with difficulty 3, of the game started
with difficulty 1. -/
theorem C7_start_idempotent_witness :
    startZombieGame gridController startedGame 50 zeroRand 3 "main"
      = (startedGame, [Out.broadcast (Payload.zombie_position_batch
          (zombieData startedGame.zombieGame.zombies) startedGame.zombieGame.currentMap
          startedGame.zombieGame.difficulty 50)]) :=
  (C7_start_idempotent gridController startedGame 50 zeroRand 3 "main"
    { type := "zombie_game_update", action := some "start" } rfl rfl rfl).1

/-! ## The tick timer -/


theorem TimerInv.filter_held {s : ServerState} (hinv : TimerInv s) {h : Nat}
    (hh : s.zombieUpdateInterval = some h) :
    s.intervals.filter (fun t => !(t.1 == h)) = [] := by
  rw [List.filter_eq_nil_iff]
  intro t ht
  have := hinv.2 t ht
  rw [hh] at this
  simp only [Option.some.injEq] at this
  simp [this]

theorem TimerInv.nil_of_none {s : ServerState} (hinv : TimerInv s)
    (hh : s.zombieUpdateInterval = none) : s.intervals = [] := by
  cases hl : s.intervals with
  | nil => rfl
  | cons t rest =>
    have := hinv.2 t (by rw [hl]; exact List.mem_cons_self _ _)
    rw [hh] at this
    cases this

theorem timerInv_of_nil {s : ServerState} (hi : s.intervals = []) : TimerInv s := by
  simp [TimerInv, hi]

theorem timerInv_of_single {s : ServerState} {h : Nat} {d : Option Nat}
    (hi : s.intervals = [(h, d)]) (hs : s.zombieUpdateInterval = some h) : TimerInv s := by
  simp [TimerInv, hi, hs]

theorem timerInv_of_eq {s s' : ServerState} (hinv : TimerInv s)
    (hi : s'.intervals = s.intervals)
    (hs : s'.zombieUpdateInterval = s.zombieUpdateInterval) : TimerInv s' := by
  unfold TimerInv
  rw [hi, hs]
  exact hinv

/-- C8, as stated, fails: stopping the game started with difficulty 1 leaves
its two zombies in `zombieGame.zombies`. -/
theorem C8_counterexample :
    startedGame.zombieGame.isActive = true
      ∧ (stopZombieGame startedGame).1.zombieGame.zombies.length = 2 := by
  decide

theorem startZombieUpdates_timerInv (s : ServerState) (hinv : TimerInv s) :
    TimerInv (startZombieUpdates s) := by
  unfold startZombieUpdates
  cases hh : s.zombieUpdateInterval with
  | none =>
    exact timerInv_of_single (h := s.nextHandle)
      (d := some ((updateIntervals s.zombieGame.difficulty).getD 1000)) (by simp [setInterval, hinv.nil_of_none hh]) rfl
  | some h =>
    exact timerInv_of_single (h := s.nextHandle)
      (d := some ((updateIntervals s.zombieGame.difficulty).getD 1000))
      (by simp [setInterval, clearInterval, hinv.filter_held hh]) rfl

theorem startZombieGame_timerInv (ctl : ZombieController) (s : ServerState) (now : Nat)
    (rand : Rand) (d : Nat) (map : String) (hinv : TimerInv s) :
    TimerInv (startZombieGame ctl s now rand d map).1 := by
  unfold startZombieGame
  split
  · exact hinv
  · exact startZombieUpdates_timerInv _ (timerInv_of_eq hinv rfl rfl)

theorem stopZombieGame_timerInv (s : ServerState) (hinv : TimerInv s) :
    TimerInv (stopZombieGame s).1 := by
  unfold stopZombieGame
  cases hh : s.zombieUpdateInterval with
  | none => exact timerInv_of_nil (by simp [hh, hinv.nil_of_none hh])
  | some h => exact timerInv_of_nil (by simp [hh, clearInterval, hinv.filter_held hh])

theorem processFood_timerInv (s : ServerState) (m : Message) (hinv : TimerInv s) :
    TimerInv (processFood s m).1 := by
  unfold processFood
  cases hh : s.zombieUpdateInterval with
  | none =>
    exact timerInv_of_single (h := s.nextHandle)
      (d := (updateIntervals s.zombieGame.difficulty).map (fun v => v + 300))
      (by simp [setTimeout, setInterval, hinv.nil_of_none hh]) rfl
  | some h =>
    exact timerInv_of_single (h := s.nextHandle)
      (d := (updateIntervals s.zombieGame.difficulty).map (fun v => v + 300))
      (by simp [setTimeout, setInterval, clearInterval, hinv.filter_held hh]) rfl

theorem restoreCallback_timerInv (s : ServerState) (old : Option Nat) (hinv : TimerInv s) :
    TimerInv (restoreCallback s old).1 := by
  unfold restoreCallback
  split
  · rename_i h hact hh
    exact timerInv_of_single (h := s.nextHandle) (d := old)
      (by simp [setInterval, clearInterval, hinv.filter_held hh]) rfl
  · exact hinv

theorem updateZombiePositions_timers (ctl : ZombieController) (s : ServerState) (now : Nat)
    (seed : Nat) :
    (updateZombiePositions ctl s now seed).1.intervals = s.intervals
      ∧ (updateZombiePositions ctl s now seed).1.zombieUpdateInterval
          = s.zombieUpdateInterval := by
  unfold updateZombiePositions
  split <;> exact ⟨rfl, rfl⟩

theorem tickCallback_timerInv (ctl : ZombieController) (s : ServerState) (now : Nat)
    (seed : Nat) (hinv : TimerInv s) : TimerInv (tickCallback ctl s now seed).1 := by
  unfold tickCallback
  split
  · exact timerInv_of_eq hinv (updateZombiePositions_timers ctl s now seed).1
      (updateZombiePositions_timers ctl s now seed).2
  · cases hh : s.zombieUpdateInterval with
    | none => exact hinv
    | some h => exact timerInv_of_nil (by simp [clearInterval, hinv.filter_held hh])

theorem processZombieGameMessages_timerInv (ctl : ZombieController) (s : ServerState)
    (now : Nat) (rand : Rand) (m : Message) (hinv : TimerInv s) :
    TimerInv (processZombieGameMessages ctl s now rand m).1 := by
  unfold processZombieGameMessages
  split
  · split
    · split
      · exact startZombieGame_timerInv _ _ _ _ _ _ hinv
      · exact hinv
    · split
      · split
        · exact stopZombieGame_timerInv _ hinv
        · exact hinv
      · split
        · split <;> exact hinv
        · exact hinv
  · split
    · exact processFood_timerInv _ _ hinv
    · exact hinv

theorem handleJoin_timers (s : ServerState) (rand : Rand) (id : String) :
    (handleJoin s rand id).state.intervals = s.intervals
      ∧ (handleJoin s rand id).state.zombieUpdateInterval = s.zombieUpdateInterval := by
  unfold handleJoin
  split <;> exact ⟨rfl, rfl⟩

theorem reconcile_timers (s : ServerState) (rand : Rand) (id : String) (data : Message) :
    (reconcile s rand id data).state.intervals = s.intervals
      ∧ (reconcile s rand id data).state.zombieUpdateInterval = s.zombieUpdateInterval := by
  unfold reconcile
  split
  · simp only
    split
    · split <;> exact ⟨rfl, rfl⟩
    · exact ⟨rfl, rfl⟩
  · exact ⟨rfl, rfl⟩

theorem handleUpdate_timers (s : ServerState) (now : Nat) (rand : Rand) (id : String)
    (data : Message) :
    (handleUpdate s now rand id data).state.intervals = s.intervals
      ∧ (handleUpdate s now rand id data).state.zombieUpdateInterval
          = s.zombieUpdateInterval := by
  cases hsu : (shouldUpdate s.lastUpdateTime now id).1 with
  | false =>
    rw [handleUpdate_rejected _ _ _ _ _ hsu]
    exact ⟨rfl, rfl⟩
  | true =>
    rw [handleUpdate_accepted _ _ _ _ _ hsu]
    exact reconcile_timers _ _ _ _

theorem handleLeave_timers (s : ServerState) (id : String) :
    (handleLeave s id).state.intervals = s.intervals
      ∧ (handleLeave s id).state.zombieUpdateInterval = s.zombieUpdateInterval := by
  unfold handleLeave
  split <;> exact ⟨rfl, rfl⟩

theorem handleMessage_timerInv (ctl : ZombieController) (s : ServerState) (now : Nat)
    (rand : Rand) (m : Inbound) (hinv : TimerInv s) :
    TimerInv (handleMessage ctl s now rand m).state := by
  unfold handleMessage
  split
  · exact hinv
  · simp only
    split
    · exact processZombieGameMessages_timerInv _ _ _ _ _ hinv
    · split
      · exact hinv
      · exact hinv
      · split
        · exact hinv
        · split
          · exact timerInv_of_eq hinv (handleJoin_timers _ _ _).1 (handleJoin_timers _ _ _).2
          · split
            · exact timerInv_of_eq hinv (handleUpdate_timers _ _ _ _ _).1
                (handleUpdate_timers _ _ _ _ _).2
            · split
              · exact timerInv_of_eq hinv (handleLeave_timers _ _).1 (handleLeave_timers _ _).2
              · split <;> exact hinv

theorem sweepStep_timers (now : Nat) (acc : ServerState × List Out) (id : String) :
    (sweepStep now acc id).1.intervals = acc.1.intervals
      ∧ (sweepStep now acc id).1.zombieUpdateInterval = acc.1.zombieUpdateInterval := by
  unfold sweepStep
  split
  · split <;> exact ⟨rfl, rfl⟩
  · exact ⟨rfl, rfl⟩

theorem foldl_sweepStep_timers (now : Nat) (keys : List String) (acc : ServerState × List Out) :
    (keys.foldl (sweepStep now) acc).1.intervals = acc.1.intervals
      ∧ (keys.foldl (sweepStep now) acc).1.zombieUpdateInterval
          = acc.1.zombieUpdateInterval := by
  induction keys generalizing acc with
  | nil => exact ⟨rfl, rfl⟩
  | cons k rest ih =>
    simp only [List.foldl_cons]
    exact ⟨(ih _).1.trans (sweepStep_timers now acc k).1,
      (ih _).2.trans (sweepStep_timers now acc k).2⟩

theorem fireTimeout_timerInv (s : ServerState) (now h : Nat) (hinv : TimerInv s) :
    TimerInv (fireTimeout s now h).1 := by
  unfold fireTimeout
  split
  · exact hinv
  · split
    · exact restoreCallback_timerInv _ _ (timerInv_of_eq hinv rfl rfl)
    · exact timerInv_of_eq hinv rfl rfl
    · exact timerInv_of_eq hinv rfl rfl

theorem handleConnection_timerInv (s : ServerState) (hinv : TimerInv s) :
    TimerInv (handleConnection s) := by
  unfold handleConnection
  simp only
  split <;> exact timerInv_of_eq hinv rfl rfl

/-- One turn of the event loop keeps the timer invariant. -/
theorem step_timerInv (ctl : ZombieController) (s : ServerState) (env : Env) (e : Event)
    (hinv : TimerInv s) : TimerInv (step ctl s env e).state := by
  cases e with
  | connection => exact handleConnection_timerInv s hinv
  | message m => exact handleMessage_timerInv _ _ _ _ _ hinv
  | close => exact hinv
  | tick h =>
    simp only [step]
    split
    · exact tickCallback_timerInv _ _ _ _ hinv
    · exact hinv
  | timeout h => exact fireTimeout_timerInv _ _ _ hinv
  | sweep =>
    exact timerInv_of_eq hinv (foldl_sweepStep_timers _ _ _).1 (foldl_sweepStep_timers _ _ _).2
  | adminStart d map => exact startZombieGame_timerInv _ _ _ _ _ _ hinv
  | adminStop => exact stopZombieGame_timerInv _ hinv
  | adminStartTest => exact startZombieGame_timerInv _ _ _ _ _ _ hinv

theorem run_timerInv (ctl : ZombieController) (trace : List (Env × Event)) (s : ServerState)
    (hinv : TimerInv s) : TimerInv (run ctl s trace) := by
  induction trace generalizing s with
  | nil => exact hinv
  | cons ee rest ih =>
    obtain ⟨env, e⟩ := ee
    exact ih _ (step_timerInv ctl s env e hinv)

/-- The state `startedGame` is reached by the route `start-test`. -/
theorem startedGame_reachable : Reachable gridController startedGame :=
  ⟨[(exampleEnv, Event.adminStartTest)], rfl⟩

/-- C8, amended: from every reachable state, `stopZombieGame` clears the
active flag, leaves no tick timer live and the slot `zombieUpdateInterval`
empty, emits exactly one `stop` command, and leaves `zombieGame.zombies` as it
was. -/
theorem C8_stop (ctl : ZombieController) (s : ServerState) (hreach : Reachable ctl s) :
    (stopZombieGame s).1.zombieGame.isActive = false
      ∧ (stopZombieGame s).1.intervals = []
      ∧ (stopZombieGame s).1.zombieUpdateInterval = none
      ∧ (stopZombieGame s).2 = [Out.broadcast Payload.command_stop]
      ∧ (stopZombieGame s).1.zombieGame.zombies = s.zombieGame.zombies := by
  have hinv : TimerInv s := by
    obtain ⟨trace, rfl⟩ := hreach
    exact run_timerInv ctl trace ServerState.init (timerInv_of_nil rfl)
  unfold stopZombieGame
  cases hh : s.zombieUpdateInterval with
  | none => simp [hh, hinv.nil_of_none hh]
  | some h => simp [hh, clearInterval, hinv.filter_held hh]

/-- C8 amended, at an instance: the stop of the game started with difficulty 1. -/
theorem C8_stop_witness :
    (stopZombieGame startedGame).1.zombieGame.isActive = false
      ∧ (stopZombieGame startedGame).1.intervals = []
      ∧ (stopZombieGame startedGame).1.zombieUpdateInterval = none
      ∧ (stopZombieGame startedGame).2 = [Out.broadcast Payload.command_stop]
      ∧ (stopZombieGame startedGame).1.zombieGame.zombies = startedGame.zombieGame.zombies :=
  C8_stop gridController startedGame startedGame_reachable

/-- C9 (one tick timer): in every state reachable from the initial state by
connections, messages, closes, timer firings, sweeps and control requests, at
most one tick timer is live, and every live tick timer is the one held in
`zombieUpdateInterval`. -/
theorem C9_at_most_one_tick_timer (ctl : ZombieController) (s : ServerState)
    (hreach : Reachable ctl s) :
    s.intervals.length ≤ 1 ∧ ∀ t ∈ s.intervals, s.zombieUpdateInterval = some t.1 := by
  obtain ⟨trace, rfl⟩ := hreach
  exact run_timerInv ctl trace ServerState.init (timerInv_of_nil rfl)

/-- C9, at an instance: after a start, a food pickup and the speed restore,
one tick timer is live. -/
theorem C9_at_most_one_tick_timer_witness :
    (run gridController ServerState.init exampleTrace).intervals = [(3, some 800)]
      ∧ (run gridController ServerState.init exampleTrace).intervals.length ≤ 1 :=
  ⟨by decide, (C9_at_most_one_tick_timer gridController
    (run gridController ServerState.init exampleTrace) ⟨exampleTrace, rfl⟩).1⟩

/-! ## Pursuit: the nearest player -/


theorem calculateDistanceSq_nonneg (x1 y1 x2 y2 : ℚ) :
    0 ≤ calculateDistanceSq x1 y1 x2 y2 := by
  unfold calculateDistanceSq
  positivity

/-- The scan continued over `l` from a current nearest player `a`, with `pre`
the players before `a` (all strictly farther) and `mid` the players scanned
since (none nearer): the result is the first player at minimal distance. -/
theorem foldl_nearestStep (pos : Pos) (l pre mid : List (String × Player))
    (a : String × Player)
    (hpre : ∀ q ∈ pre, calculateDistanceSq pos.x pos.y a.2.x a.2.y
      < calculateDistanceSq pos.x pos.y q.2.x q.2.y)
    (hmid : ∀ q ∈ mid, calculateDistanceSq pos.x pos.y a.2.x a.2.y
      ≤ calculateDistanceSq pos.x pos.y q.2.x q.2.y) :
    ∃ pre' b post', pre ++ a :: mid ++ l = pre' ++ b :: post'
      ∧ (l.foldl (nearestStep pos)
          (some a, some (calculateDistanceSq pos.x pos.y a.2.x a.2.y))).1 = some b
      ∧ (∀ q ∈ pre', calculateDistanceSq pos.x pos.y b.2.x b.2.y
          < calculateDistanceSq pos.x pos.y q.2.x q.2.y)
      ∧ (∀ q ∈ post', calculateDistanceSq pos.x pos.y b.2.x b.2.y
          ≤ calculateDistanceSq pos.x pos.y q.2.x q.2.y) := by
  induction l generalizing pre mid a with
  | nil => exact ⟨pre, a, mid, by simp, rfl, hpre, hmid⟩
  | cons e rest ih =>
    by_cases hlt : calculateDistanceSq pos.x pos.y e.2.x e.2.y
        < calculateDistanceSq pos.x pos.y a.2.x a.2.y
    · have hstep : nearestStep pos
          (some a, some (calculateDistanceSq pos.x pos.y a.2.x a.2.y)) e
          = (some e, some (calculateDistanceSq pos.x pos.y e.2.x e.2.y)) := by
        simp [nearestStep, hlt]
      obtain ⟨pre', b, post', hsplit, hres, h1, h2⟩ := ih (pre ++ a :: mid) [] e
        (by
          intro q hq
          rcases List.mem_append.1 hq with h | h
          · exact lt_trans hlt (hpre q h)
          · rcases List.mem_cons.1 h with h | h
            · rw [h]; exact hlt
            · exact lt_of_lt_of_le hlt (hmid q h))
        (by simp)
      refine ⟨pre', b, post', ?_, ?_, h1, h2⟩
      · rw [← hsplit]; simp
      · rw [List.foldl_cons, hstep]; exact hres
    · have hstep : nearestStep pos
          (some a, some (calculateDistanceSq pos.x pos.y a.2.x a.2.y)) e
          = (some a, some (calculateDistanceSq pos.x pos.y a.2.x a.2.y)) := by
        simp [nearestStep, hlt]
      obtain ⟨pre', b, post', hsplit, hres, h1, h2⟩ := ih pre (mid ++ [e]) a hpre
        (by
          intro q hq
          rcases List.mem_append.1 hq with h | h
          · exact hmid q h
          · rw [List.mem_singleton.1 h]; exact not_lt.1 hlt)
      refine ⟨pre', b, post', ?_, ?_, h1, h2⟩
      · rw [← hsplit]; simp
      · rw [List.foldl_cons, hstep]; exact hres

/-- The player that `nearestPlayer` returns on a non-empty list is the first
one at minimal distance. -/
theorem nearestPlayer_spec (pos : Pos) (inMap : List (String × Player)) (h : inMap ≠ []) :
    ∃ pre b post, inMap = pre ++ b :: post ∧ nearestPlayer pos inMap = some b
      ∧ (∀ q ∈ pre, calculateDistanceSq pos.x pos.y b.2.x b.2.y
          < calculateDistanceSq pos.x pos.y q.2.x q.2.y)
      ∧ (∀ q ∈ post, calculateDistanceSq pos.x pos.y b.2.x b.2.y
          ≤ calculateDistanceSq pos.x pos.y q.2.x q.2.y) := by
  cases inMap with
  | nil => exact absurd rfl h
  | cons e rest =>
    obtain ⟨pre', b, post', hsplit, hres, h1, h2⟩ :=
      foldl_nearestStep pos rest [] [] e (by simp) (by simp)
    refine ⟨pre', b, post', by simpa using hsplit, ?_, h1, h2⟩
    unfold nearestPlayer
    rw [List.foldl_cons]
    exact hres

theorem chaseStep_target (ctl : ZombieController) (map : String)
    (inMap : List (String × Player)) (seed : Nat) (z : Zombie) (b : String × Player)
    (h : nearestPlayer z.position inMap = some b) :
    (chaseStep ctl map inMap seed z).1.target = some b.1 := by
  unfold chaseStep
  rw [h]

theorem updateZombiePositions_zombies (ctl : ZombieController) (s : ServerState) (now : Nat)
    (seed : Nat) (hactive : s.zombieGame.isActive = true) (hplayers : playersInMap s ≠ []) :
    (updateZombiePositions ctl s now seed).1.zombieGame.zombies
      = s.zombieGame.zombies.enum.map (fun iz =>
          (chaseStep ctl s.zombieGame.currentMap (playersInMap s) (seed + iz.1) iz.2).1) := by
  have hlen : ¬ (playersInMap s).length = 0 := by
    simpa [List.length_eq_zero] using hplayers
  simp [updateZombiePositions, hactive, hlen]

/-- A split of `playersInMap s` around one of its players lifts to a split of
`players` around the same player, which is on the session's map; the in-map
players before it, respectively after it, are those of the split. -/
theorem playersInMap_split (s : ServerState) (pre post : List (String × Player))
    (b : String × Player) (h : playersInMap s = pre ++ b :: post) :
    ∃ pre' post', s.players = pre' ++ b :: post'
      ∧ b.2.currentMap = s.zombieGame.currentMap
      ∧ (∀ q ∈ pre', q.2.currentMap = s.zombieGame.currentMap → q ∈ pre)
      ∧ (∀ q ∈ post', q.2.currentMap = s.zombieGame.currentMap → q ∈ post) := by
  unfold playersInMap at h
  obtain ⟨l1, l2, hl, h1, h2⟩ := List.filter_eq_append_iff.1 h
  obtain ⟨m1, m2, hm, hnot, hb, hpost⟩ := List.filter_eq_cons_iff.1 h2
  refine ⟨l1 ++ m1, m2, ?_, ?_, ?_, ?_⟩
  · rw [hl, hm, List.append_assoc]
  · simpa using hb
  · intro q hq hmap
    rcases List.mem_append.1 hq with hq1 | hq1
    · rw [← h1]
      exact List.mem_filter.2 ⟨hq1, by simpa using hmap⟩
    · exact absurd (by simpa using hmap) (hnot q hq1)
  · intro q hq hmap
    rw [← hpost]
    exact List.mem_filter.2 ⟨hq, by simpa using hmap⟩

/-- C10 (nearest target): one tick on an active session with at least one
player on the session's map keeps the number of zombies and sets the target of
each zombie to the id of a player of `players` whose `currentMap` is the
session's map and who is the first, in the enumeration order of `players`,
among the players on that map at minimal Euclidean distance from the zombie's
position before the move: every player on the session's map enumerated
earlier is strictly farther, every later one is at least as far. -/
theorem C10_nearest_target (ctl : ZombieController) (s : ServerState) (now : Nat)
    (seed : Nat) (hactive : s.zombieGame.isActive = true)
    (hplayers : ∃ q ∈ s.players, q.2.currentMap = s.zombieGame.currentMap) :
    (updateZombiePositions ctl s now seed).1.zombieGame.zombies.length
        = s.zombieGame.zombies.length
      ∧ ∀ (i : Nat) (z z' : Zombie), s.zombieGame.zombies[i]? = some z →
          (updateZombiePositions ctl s now seed).1.zombieGame.zombies[i]? = some z' →
          ∃ pre e post, s.players = pre ++ e :: post
            ∧ e.2.currentMap = s.zombieGame.currentMap
            ∧ z'.target = some e.1
            ∧ (∀ q ∈ pre, q.2.currentMap = s.zombieGame.currentMap →
                Real.sqrt ((calculateDistanceSq z.position.x z.position.y e.2.x e.2.y : ℚ) : ℝ)
                  < Real.sqrt
                    ((calculateDistanceSq z.position.x z.position.y q.2.x q.2.y : ℚ) : ℝ))
            ∧ (∀ q ∈ post, q.2.currentMap = s.zombieGame.currentMap →
                Real.sqrt ((calculateDistanceSq z.position.x z.position.y e.2.x e.2.y : ℚ) : ℝ)
                  ≤ Real.sqrt
                    ((calculateDistanceSq z.position.x z.position.y q.2.x q.2.y : ℚ) : ℝ)) := by
  have hne : playersInMap s ≠ [] := by
    obtain ⟨q, hq, hmap⟩ := hplayers
    have hmem : q ∈ playersInMap s := List.mem_filter.2 ⟨hq, by simpa using hmap⟩
    exact List.ne_nil_of_mem hmem
  rw [updateZombiePositions_zombies ctl s now seed hactive hne]
  refine ⟨by simp, ?_⟩
  intro i z z' hz hz'
  have hz'' : z' = (chaseStep ctl s.zombieGame.currentMap (playersInMap s) (seed + i) z).1 := by
    simp [List.getElem?_map, List.getElem?_enum, hz] at hz'
    exact hz'.symm
  obtain ⟨pre, b, post, hsplit, hnear, h1, h2⟩ :=
    nearestPlayer_spec z.position (playersInMap s) hne
  obtain ⟨pre', post', hall, hbmap, hpre, hpost⟩ := playersInMap_split s pre post b hsplit
  refine ⟨pre', b, post', hall, hbmap, ?_, ?_, ?_⟩
  · rw [hz'']
    exact chaseStep_target _ _ _ _ _ _ hnear
  · intro q hq hmap
    apply Real.sqrt_lt_sqrt
    · exact_mod_cast calculateDistanceSq_nonneg _ _ _ _
    · exact_mod_cast h1 q (hpre q hq hmap)
  · intro q hq hmap
    apply Real.sqrt_le_sqrt
    exact_mod_cast h2 q (hpost q hq hmap)

/-- The example of the spec, evaluated: the hunter at `(0, 0)` with `a` at
`(3, 0)` and `b` at `(1, 0)` targets `b`. -/
theorem huntState_tick :
    ((updateZombiePositions gridController huntState 0 0).1.zombieGame.zombies.map
      Zombie.target) = [some "b"] := by
  have hin : playersInMap huntState = huntState.players := by decide
  rw [updateZombiePositions_zombies gridController huntState 0 0 rfl (by decide), hin]
  simp [huntState, ServerState.init, List.enum, List.enumFrom, chaseStep, nearestPlayer,
    nearestStep, calculateDistanceSq]

/-- C10, at the instance of the spec: the tick keeps the one hunter of
`huntState`, and its target is `b`, the player at `(1, 0)`. -/
theorem C10_nearest_target_witness :
    (updateZombiePositions gridController huntState 0 0).1.zombieGame.zombies.length
        = huntState.zombieGame.zombies.length
      ∧ ((updateZombiePositions gridController huntState 0 0).1.zombieGame.zombies.map
          Zombie.target) = [some "b"] :=
  ⟨(C10_nearest_target gridController huntState 0 0 rfl
      ⟨_, List.mem_cons_self _ _, rfl⟩).1, huntState_tick⟩

/-! ## Leave, join replies, snapshots and unusable ids -/


/-- A `leave` message with a usable id is handled by the case `"leave"`. -/
theorem handleMessage_leave (ctl : ZombieController) (s : ServerState) (now : Nat)
    (rand : Rand) (data : Message) (id : String) (htype : data.type = "leave")
    (hid : data.id = IdField.str id) (hne : jsTrim id ≠ "") :
    handleMessage ctl s now rand (Inbound.msg data) = handleLeave s (jsTrim id) := by
  simp [handleMessage, scaleGlobal_type, scaleGlobal_id, htype, hid, hne]

/-- The state `remoteOnlyState` is reached by one message. -/
theorem remoteOnlyState_reachable : Reachable gridController remoteOnlyState :=
  ⟨[({ now := 1000, rand := constRand, seed := 0 },
      Event.message (Inbound.msg (updateLR "p1" none (some ⟨7, 8⟩) none)))], rfl⟩

/-- C14, as stated, fails: after an `update` for `p1` that carried only
`remote`, a `leave` for `p1` finds no `players["p1"]` and does nothing, so
`p1_remote` and the timestamp of `p1` stay. -/
theorem C14_counterexample :
    (handleMessage gridController remoteOnlyState 5000 constRand
        (Inbound.msg { type := "leave", id := IdField.str "p1" })).state.players.get "p1_remote"
      = some { x := 7, y := 8, currentMap := "main", color := "#FF0000", type := "remote" }
    ∧ (handleMessage gridController remoteOnlyState 5000 constRand
        (Inbound.msg { type := "leave", id := IdField.str "p1" })).state.lastUpdateTime.get "p1"
      = some 1000 := by
  decide

/-- C14, amended: a `leave` for a non-blank id for which `players[id]` is
truthy (the id has a base entry, or names an inherited member such as
`constructor`) removes the entry of the id, the entry `<id>_remote` and the
timestamp of the id, and broadcasts one `disconnect`; a `leave` for an id for
which `players[id]` is undefined changes nothing and sends nothing. -/
theorem C14_leave (ctl : ZombieController) (s : ServerState) (now : Nat) (rand : Rand)
    (m : Message) (id : String) (htype : m.type = "leave") (hid : m.id = IdField.str id)
    (hne : jsTrim id ≠ "") :
    (((s.players.get (jsTrim id)).isSome || inherited (jsTrim id)) = true →
        (handleMessage ctl s now rand (Inbound.msg m)).state.players.get (jsTrim id) = none
        ∧ (handleMessage ctl s now rand (Inbound.msg m)).state.players.get
            (jsTrim id ++ "_remote") = none
        ∧ (handleMessage ctl s now rand (Inbound.msg m)).state.lastUpdateTime.get (jsTrim id)
            = none
        ∧ (handleMessage ctl s now rand (Inbound.msg m)).out
            = [Out.broadcast (Payload.disconnect (jsTrim id))])
      ∧ (((s.players.get (jsTrim id)).isSome || inherited (jsTrim id)) = false →
        (handleMessage ctl s now rand (Inbound.msg m)).state = s
        ∧ (handleMessage ctl s now rand (Inbound.msg m)).out = []) := by
  rw [handleMessage_leave ctl s now rand m id htype hid hne]
  constructor
  · intro hp
    simp only [handleLeave, hp, if_true]
    simp [Obj.get_delete]
  · intro hp
    simp [handleLeave, hp]

/-- C14 amended, at an instance: `leave` for the `p1` stored by an update. -/
theorem C14_leave_witness :
    (handleMessage gridController afterFirstUpdate 5000 constRand
        (Inbound.msg { type := "leave", id := IdField.str "p1" })).state.players.get
          (jsTrim "p1") = none
      ∧ (handleMessage gridController afterFirstUpdate 5000 constRand
        (Inbound.msg { type := "leave", id := IdField.str "p1" })).state.lastUpdateTime.get
          (jsTrim "p1") = none :=
  ⟨((C14_leave gridController afterFirstUpdate 5000 constRand
      { type := "leave", id := IdField.str "p1" } "p1" rfl rfl jsTrim_p1_ne).1 (by rfl)).1,
   ((C14_leave gridController afterFirstUpdate 5000 constRand
      { type := "leave", id := IdField.str "p1" } "p1" rfl rfl jsTrim_p1_ne).1
        (by rfl)).2.2.1⟩

/-- C16, evaluated where it fails: a new connection on the running game
`startedGame` clears the active flag and the hunters. -/
theorem C16_connection_resets_session :
    startedGame.zombieGame.isActive = true
      ∧ startedGame.zombieGame.zombies.length = 2
      ∧ (step gridController startedGame exampleEnv Event.connection).state.zombieGame.isActive
          = false
      ∧ (step gridController startedGame exampleEnv Event.connection).state.zombieGame.zombies
          = []
      ∧ (step gridController startedGame exampleEnv Event.connection).out = [] := by
  decide

/-- C17, as stated, fails: the second `join` of `p1` gets no reply. -/
theorem C17_counterexample :
    (joinedState.players.get "p1").isSome = true
      ∧ (handleMessage gridController joinedState 10 constRand
          (Inbound.msg (joinMsg "p1"))).out = [] := by
  decide

/-- C17, amended: a `join` with a non-blank id for which `players[id]` is
undefined (no entry, and not the name of an inherited member such as
`constructor`) stores the player at `(1, 1)` on `main` and sends the joining
connection exactly one `positions` event, whose payload is the player mapping
after the join; a `join` for an id for which `players[id]` is truthy sends
nothing. -/
theorem C17_join_reply (ctl : ZombieController) (s : ServerState) (now : Nat) (rand : Rand)
    (m : Message) (id : String) (htype : m.type = "join") (hid : m.id = IdField.str id)
    (hne : jsTrim id ≠ "") :
    (((s.players.get (jsTrim id)).isSome || inherited (jsTrim id)) = false →
        (handleMessage ctl s now rand (Inbound.msg m)).out
          = [Out.send (Payload.positions
              (handleMessage ctl s now rand (Inbound.msg m)).state.players)]
        ∧ (handleMessage ctl s now rand (Inbound.msg m)).state.players.get (jsTrim id)
          = some { x := 1, y := 1, currentMap := "main",
                   color := generateRandomColor (rand 0), type := "local" })
      ∧ (((s.players.get (jsTrim id)).isSome || inherited (jsTrim id)) = true →
        (handleMessage ctl s now rand (Inbound.msg m)).out = []
        ∧ (handleMessage ctl s now rand (Inbound.msg m)).state = s) := by
  rw [handleMessage_join ctl s now rand m id htype hid hne]
  constructor
  · intro hp
    simp only [handleJoin, hp]
    simp [Obj.get_set]
  · intro hp
    rw [handleJoin_truthy s rand _ hp]
    exact ⟨rfl, rfl⟩

/-- C17 amended, at an instance: the first `join` of `p1`. -/
theorem C17_join_reply_witness :
    (handleMessage gridController ServerState.init 0 constRand (Inbound.msg (joinMsg "p1"))).out
      = [Out.send (Payload.positions
          (handleMessage gridController ServerState.init 0 constRand
            (Inbound.msg (joinMsg "p1"))).state.players)] :=
  ((C17_join_reply gridController ServerState.init 0 constRand (joinMsg "p1") "p1" rfl rfl
    jsTrim_p1_ne).1 (by rfl)).1

/-- C18, as stated, fails: a `request_positions` message without an `id` gets
no reply. -/
theorem C18_counterexample :
    (handleMessage gridController joinedState 10 constRand
      (Inbound.msg { type := "request_positions" })).out = [] := by
  decide

/-- C18, amended: a `request_positions` message whose `id` is a non-blank
string is answered by exactly one `positions` event carrying the whole player
mapping, and changes no state; one whose `id` is missing or blank is dropped
without a reply. -/
theorem C18_request_positions (ctl : ZombieController) (s : ServerState) (now : Nat)
    (rand : Rand) (m : Message) (htype : m.type = "request_positions") :
    (∀ id, m.id = IdField.str id → jsTrim id ≠ "" →
        (handleMessage ctl s now rand (Inbound.msg m)).out
          = [Out.send (Payload.positions s.players)]
        ∧ (handleMessage ctl s now rand (Inbound.msg m)).state = s)
      ∧ ((m.id = IdField.absent ∨ ∃ id, m.id = IdField.str id ∧ jsTrim id = "") →
        (handleMessage ctl s now rand (Inbound.msg m)).out = []
        ∧ (handleMessage ctl s now rand (Inbound.msg m)).state = s) := by
  constructor
  · intro id hid hne
    simp [handleMessage, scaleGlobal_type, scaleGlobal_id, htype, hid, hne]
  · rintro (hid | ⟨id, hid, hblank⟩)
    · simp [handleMessage, scaleGlobal_type, scaleGlobal_id, htype, hid]
    · simp [handleMessage, scaleGlobal_type, scaleGlobal_id, htype, hid, hblank]

/-- C18 amended, at an instance: `request_positions` with the id `p1`. -/
theorem C18_request_positions_witness :
    (handleMessage gridController joinedState 10 constRand
      (Inbound.msg { type := "request_positions", id := IdField.str "p1" })).out
      = [Out.send (Payload.positions joinedState.players)] :=
  ((C18_request_positions gridController joinedState 10 constRand
    { type := "request_positions", id := IdField.str "p1" } rfl).1 "p1" rfl jsTrim_p1_ne).1

theorem dropWhile_eq_nil_of_all {α : Type} (p : α → Bool) (l : List α)
    (h : l.all p = true) : l.dropWhile p = [] := by
  induction l with
  | nil => rfl
  | cons a rest ih =>
    simp only [List.all_cons, Bool.and_eq_true] at h
    simp [List.dropWhile, h.1, ih h.2]

/-- A string made of white space only (the empty one included) trims to `""`. -/
theorem jsTrim_blank (id : String) (h : id.toList.all isJsWhiteSpace = true) :
    jsTrim id = "" := by
  unfold jsTrim
  rw [dropWhile_eq_nil_of_all _ _ h]
  rfl

/-- C19 (unusable id): a `join`, `update` or `leave` message whose `id` is
missing, is a string of white space only (possibly empty), or is not a string
is handled to the end (the exception of a non-string id reaches the `catch`
block), leaves the whole state unchanged and sends nothing. -/
theorem C19_unusable_id (ctl : ZombieController) (s : ServerState) (now : Nat) (rand : Rand)
    (m : Message) (htype : m.type = "join" ∨ m.type = "update" ∨ m.type = "leave")
    (hid : m.id = IdField.absent ∨ m.id = IdField.other
      ∨ ∃ id, m.id = IdField.str id ∧ id.toList.all isJsWhiteSpace = true) :
    (handleMessage ctl s now rand (Inbound.msg m)).state = s
      ∧ (handleMessage ctl s now rand (Inbound.msg m)).out = []
      ∧ ((handleMessage ctl s now rand (Inbound.msg m)).errorLogged = true
          ↔ m.id = IdField.other) := by
  have hz : ¬ (m.type = "zombie_game_update" ∨ m.type = "zombie_game_food") := by
    rcases htype with h | h | h <;> rw [h] <;> decide
  rcases hid with hid | hid | ⟨id, hid, hblank⟩
  · simp [handleMessage, scaleGlobal_type, scaleGlobal_id, hz, hid]
  · simp [handleMessage, scaleGlobal_type, scaleGlobal_id, hz, hid]
  · simp [handleMessage, scaleGlobal_type, scaleGlobal_id, hz, hid, jsTrim_blank id hblank]

/-- C19, at an instance: an `update` whose id is two blanks. -/
theorem C19_unusable_id_witness :
    (handleMessage gridController joinedState 10 constRand
        (Inbound.msg (updateXY "  " 3 4 none))).state = joinedState
      ∧ (handleMessage gridController joinedState 10 constRand
        (Inbound.msg (updateXY "  " 3 4 none))).out = [] :=
  ⟨(C19_unusable_id gridController joinedState 10 constRand (updateXY "  " 3 4 none)
      (Or.inr (Or.inl rfl)) (Or.inr (Or.inr ⟨"  ", rfl, by decide⟩))).1,
   (C19_unusable_id gridController joinedState 10 constRand (updateXY "  " 3 4 none)
      (Or.inr (Or.inl rfl)) (Or.inr (Or.inr ⟨"  ", rfl, by decide⟩))).2.1⟩

/-! ## The inactivity sweep -/


theorem Obj.mem_keys_of_get {α : Type} (o : Obj α) (k : String) (v : α)
    (h : o.get k = some v) : k ∈ o.keys := by
  induction o with
  | nil => simp [Obj.get] at h
  | cons e rest ih =>
    obtain ⟨k0, v0⟩ := e
    by_cases hk : k0 = k
    · simp [Obj.keys, hk]
    · have : Obj.get rest k = some v := by simpa [Obj.get, hk] using h
      have := ih this
      simp only [Obj.keys, List.map_cons, List.mem_cons] at this ⊢
      exact Or.inr this

/-- A round of the sweep for another key leaves the timestamp of `id` and the
count of its `disconnect` broadcasts as they were. -/
theorem sweepStep_other (now : Nat) (acc : ServerState × List Out) (k id : String)
    (hk : k ≠ id) :
    (sweepStep now acc k).1.lastUpdateTime.get id = acc.1.lastUpdateTime.get id
      ∧ disconnectBroadcasts id (sweepStep now acc k).2 = disconnectBroadcasts id acc.2 := by
  have hne : ¬ id = k := fun h => hk h.symm
  unfold sweepStep
  split
  · split
    · refine ⟨by simp [Obj.get_delete, hne], ?_⟩
      simp [disconnectBroadcasts, List.count_append, List.count_cons, hk]
    · exact ⟨rfl, rfl⟩
  · exact ⟨rfl, rfl⟩

/-- A round of the sweep never creates an entry of `players`. -/
theorem sweepStep_players_none (now : Nat) (acc : ServerState × List Out) (k x : String)
    (h : acc.1.players.get x = none) : (sweepStep now acc k).1.players.get x = none := by
  unfold sweepStep
  split
  · split
    · simp [Obj.get_delete, h]
    · exact h
  · exact h

/-- A round of the sweep for a key without a timestamp does nothing. -/
theorem sweepStep_absent (now : Nat) (acc : ServerState × List Out) (k : String)
    (h : acc.1.lastUpdateTime.get k = none) : sweepStep now acc k = acc := by
  simp [sweepStep, h]

/-- The round of the sweep for a key whose timestamp is older than 30000 ms. -/
theorem sweepStep_expired (now : Nat) (acc : ServerState × List Out) (id : String) (t : Nat)
    (h : acc.1.lastUpdateTime.get id = some t) (hold : (now : ℤ) - (t : ℤ) > 30000) :
    (sweepStep now acc id).1.lastUpdateTime.get id = none
      ∧ (sweepStep now acc id).1.players.get id = none
      ∧ (sweepStep now acc id).1.players.get (id ++ "_remote") = none
      ∧ disconnectBroadcasts id (sweepStep now acc id).2
          = disconnectBroadcasts id acc.2 + 1 := by
  simp [sweepStep, h, hold, Obj.get_delete, disconnectBroadcasts, List.count_append]

/-- Rounds of the sweep on a state where `id` has no timestamp: none is
created, no `disconnect` for `id` is added, and absent entries stay absent. -/
theorem foldl_sweepStep_absent (now : Nat) (id : String) (ks : List String)
    (acc : ServerState × List Out) (h : acc.1.lastUpdateTime.get id = none) :
    (ks.foldl (sweepStep now) acc).1.lastUpdateTime.get id = none
      ∧ disconnectBroadcasts id (ks.foldl (sweepStep now) acc).2
          = disconnectBroadcasts id acc.2 := by
  induction ks generalizing acc with
  | nil => exact ⟨h, rfl⟩
  | cons k rest ih =>
    rw [List.foldl_cons]
    by_cases hk : k = id
    · subst hk
      rw [sweepStep_absent now acc k h]
      exact ih acc h
    · have hstep := sweepStep_other now acc k id hk
      have := ih (sweepStep now acc k) (hstep.1.trans h)
      exact ⟨this.1, this.2.trans hstep.2⟩

theorem foldl_sweepStep_players_none (now : Nat) (x : String) (ks : List String)
    (acc : ServerState × List Out) (h : acc.1.players.get x = none) :
    (ks.foldl (sweepStep now) acc).1.players.get x = none := by
  induction ks generalizing acc with
  | nil => exact h
  | cons k rest ih =>
    rw [List.foldl_cons]
    exact ih _ (sweepStep_players_none now acc k x h)

/-- Rounds of the sweep over keys that include `id`, whose timestamp is older
than 30000 ms: `id` loses its timestamp and both entries, and exactly one
`disconnect` for `id` is added. -/
theorem foldl_sweepStep_expired (now : Nat) (id : String) (t : Nat) (ks : List String)
    (acc : ServerState × List Out) (hmem : id ∈ ks)
    (h : acc.1.lastUpdateTime.get id = some t) (hold : (now : ℤ) - (t : ℤ) > 30000) :
    (ks.foldl (sweepStep now) acc).1.lastUpdateTime.get id = none
      ∧ (ks.foldl (sweepStep now) acc).1.players.get id = none
      ∧ (ks.foldl (sweepStep now) acc).1.players.get (id ++ "_remote") = none
      ∧ disconnectBroadcasts id (ks.foldl (sweepStep now) acc).2
          = disconnectBroadcasts id acc.2 + 1 := by
  induction ks generalizing acc with
  | nil => simp at hmem
  | cons k rest ih =>
    rw [List.foldl_cons]
    by_cases hk : k = id
    · subst hk
      obtain ⟨h1, h2, h3, h4⟩ := sweepStep_expired now acc k t h hold
      have h5 := foldl_sweepStep_absent now k rest _ h1
      exact ⟨h5.1, foldl_sweepStep_players_none now _ rest _ h2,
        foldl_sweepStep_players_none now _ rest _ h3, h5.2.trans h4⟩
    · have hstep := sweepStep_other now acc k id hk
      have hmem' : id ∈ rest := by
        rcases List.mem_cons.1 hmem with h' | h'
        · exact absurd h'.symm hk
        · exact h'
      obtain ⟨h1, h2, h3, h4⟩ := ih (sweepStep now acc k) hmem' (hstep.1.trans h)
      exact ⟨h1, h2, h3, h4.trans (by rw [hstep.2])⟩

/-- Later sweeps on a state where `id` has no timestamp broadcast no
`disconnect` for `id`. -/
theorem runSweeps_absent (id : String) (ts : List Nat) (s : ServerState)
    (h : s.lastUpdateTime.get id = none) :
    disconnectBroadcasts id (runSweeps s ts).2 = 0 := by
  induction ts generalizing s with
  | nil => rfl
  | cons t rest ih =>
    have hs := foldl_sweepStep_absent t id (Obj.keys s.lastUpdateTime) (s, []) h
    have hrest := ih (sweep s t).1 hs.1
    have hout : disconnectBroadcasts id (sweep s t).2 = 0 := hs.2
    simp only [runSweeps, disconnectBroadcasts, List.count_append] at hrest hout ⊢
    omega

/-- C13, evaluated where it fails: `p1` joined at 0 ms and never sent an
update, so no timestamp is stored for it; the sweep at 40000 ms, which
enumerates the timestamps, keeps `p1` and broadcasts nothing. -/
theorem C13_joined_player_not_swept :
    (joinedState.players.get "p1").isSome = true
      ∧ joinedState.lastUpdateTime.get "p1" = none
      ∧ ((sweep joinedState 40000).1.players.get "p1").isSome = true
      ∧ (sweep joinedState 40000).2 = [] := by
  decide

/-- When the timestamp that `shouldUpdate` last stored for `id` is more than
30000 ms old at a sweep, the sweep removes `id` and `<id>_remote` from
`players` and the timestamp of `id`, and broadcasts exactly one `disconnect`
for `id`; sweeps that follow without another event in between broadcast
none. -/
theorem sweep_expired (s : ServerState) (now : Nat) (id : String) (t : Nat)
    (h : s.lastUpdateTime.get id = some t) (hold : (now : ℤ) - (t : ℤ) > 30000) :
    (sweep s now).1.players.get id = none
      ∧ (sweep s now).1.players.get (id ++ "_remote") = none
      ∧ (sweep s now).1.lastUpdateTime.get id = none
      ∧ disconnectBroadcasts id (sweep s now).2 = 1
      ∧ ∀ later : List Nat, disconnectBroadcasts id (runSweeps (sweep s now).1 later).2 = 0 := by
  obtain ⟨h1, h2, h3, h4⟩ := foldl_sweepStep_expired now id t (Obj.keys s.lastUpdateTime)
    (s, []) (Obj.mem_keys_of_get _ _ _ h) h hold
  refine ⟨h2, h3, h1, ?_, ?_⟩
  · simpa [disconnectBroadcasts] using h4
  · intro later
    exact runSweeps_absent id later _ h1

/-- The player `p1`, last updated at 1000 ms, at the sweep of 40000 ms and at
two later ones. -/
theorem sweep_expired_example :
    (sweep afterFirstUpdate 40000).1.players.get "p1" = none
      ∧ disconnectBroadcasts "p1" (sweep afterFirstUpdate 40000).2 = 1
      ∧ disconnectBroadcasts "p1"
          (runSweeps (sweep afterFirstUpdate 40000).1 [50000, 60000]).2 = 0 :=
  ⟨(sweep_expired afterFirstUpdate 40000 "p1" 1000 (by rfl) (by decide)).1,
   (sweep_expired afterFirstUpdate 40000 "p1" 1000 (by rfl) (by decide)).2.2.2.1,
   (sweep_expired afterFirstUpdate 40000 "p1" 1000 (by rfl) (by decide)).2.2.2.2
     [50000, 60000]⟩

/-! ## Entries of role `remote` -/


theorem remoteInv_of_eq {s s' : ServerState} (hinv : RemoteInv s)
    (hp : s'.players = s.players) (hl : s'.lastUpdateTime = s.lastUpdateTime) :
    RemoteInv s' := by
  unfold RemoteInv
  rw [hp, hl]
  exact hinv

theorem startZombieUpdates_registry (s : ServerState) :
    (startZombieUpdates s).players = s.players
      ∧ (startZombieUpdates s).lastUpdateTime = s.lastUpdateTime := by
  unfold startZombieUpdates
  cases s.zombieUpdateInterval <;> exact ⟨rfl, rfl⟩

theorem startZombieGame_registry (ctl : ZombieController) (s : ServerState) (now : Nat)
    (rand : Rand) (d : Nat) (map : String) :
    (startZombieGame ctl s now rand d map).1.players = s.players
      ∧ (startZombieGame ctl s now rand d map).1.lastUpdateTime = s.lastUpdateTime := by
  unfold startZombieGame
  split
  · exact ⟨rfl, rfl⟩
  · exact startZombieUpdates_registry _

theorem stopZombieGame_registry (s : ServerState) :
    (stopZombieGame s).1.players = s.players
      ∧ (stopZombieGame s).1.lastUpdateTime = s.lastUpdateTime := by
  unfold stopZombieGame
  cases s.zombieUpdateInterval <;> exact ⟨rfl, rfl⟩

theorem processFood_registry (s : ServerState) (m : Message) :
    (processFood s m).1.players = s.players
      ∧ (processFood s m).1.lastUpdateTime = s.lastUpdateTime := by
  unfold processFood
  cases s.zombieUpdateInterval <;> exact ⟨rfl, rfl⟩

theorem restoreCallback_registry (s : ServerState) (old : Option Nat) :
    (restoreCallback s old).1.players = s.players
      ∧ (restoreCallback s old).1.lastUpdateTime = s.lastUpdateTime := by
  unfold restoreCallback
  split <;> exact ⟨rfl, rfl⟩

theorem updateZombiePositions_registry (ctl : ZombieController) (s : ServerState) (now : Nat)
    (seed : Nat) :
    (updateZombiePositions ctl s now seed).1.players = s.players
      ∧ (updateZombiePositions ctl s now seed).1.lastUpdateTime = s.lastUpdateTime := by
  unfold updateZombiePositions
  split <;> exact ⟨rfl, rfl⟩

theorem tickCallback_registry (ctl : ZombieController) (s : ServerState) (now : Nat)
    (seed : Nat) :
    (tickCallback ctl s now seed).1.players = s.players
      ∧ (tickCallback ctl s now seed).1.lastUpdateTime = s.lastUpdateTime := by
  unfold tickCallback
  split
  · exact updateZombiePositions_registry ctl s now seed
  · cases s.zombieUpdateInterval <;> exact ⟨rfl, rfl⟩

theorem processZombieGameMessages_registry (ctl : ZombieController) (s : ServerState)
    (now : Nat) (rand : Rand) (m : Message) :
    (processZombieGameMessages ctl s now rand m).1.players = s.players
      ∧ (processZombieGameMessages ctl s now rand m).1.lastUpdateTime
          = s.lastUpdateTime := by
  unfold processZombieGameMessages
  split
  · split
    · split
      · exact startZombieGame_registry _ _ _ _ _ _
      · exact ⟨rfl, rfl⟩
    · split
      · split
        · exact stopZombieGame_registry _
        · exact ⟨rfl, rfl⟩
      · split
        · split <;> exact ⟨rfl, rfl⟩
        · exact ⟨rfl, rfl⟩
  · split
    · exact processFood_registry _ _
    · exact ⟨rfl, rfl⟩

theorem fireTimeout_registry (s : ServerState) (now h : Nat) :
    (fireTimeout s now h).1.players = s.players
      ∧ (fireTimeout s now h).1.lastUpdateTime = s.lastUpdateTime := by
  unfold fireTimeout
  split
  · exact ⟨rfl, rfl⟩
  · split
    · exact restoreCallback_registry _ _
    · exact ⟨rfl, rfl⟩
    · exact ⟨rfl, rfl⟩

theorem handleConnection_registry (s : ServerState) :
    (handleConnection s).players = s.players
      ∧ (handleConnection s).lastUpdateTime = s.lastUpdateTime := by
  unfold handleConnection
  simp only
  split <;> exact ⟨rfl, rfl⟩

theorem handleJoin_remoteInv (s : ServerState) (rand : Rand) (id : String)
    (hinv : RemoteInv s) : RemoteInv (handleJoin s rand id).state := by
  unfold handleJoin
  split
  · exact hinv
  · intro k e hk hrole
    simp only [Obj.get_set] at hk
    by_cases hkid : k = id
    · simp only [hkid, if_true, Option.some.injEq] at hk
      rw [← hk] at hrole
      simp at hrole
    · simp only [hkid, if_false] at hk
      exact hinv k e hk hrole

theorem shouldUpdate_isSome (l : Obj Nat) (now : Nat) (id x : String)
    (h : (l.get x).isSome = true) : (((shouldUpdate l now id).2).get x).isSome = true := by
  unfold shouldUpdate
  split
  · split
    · exact h
    · by_cases hx : x = id <;> simp [Obj.get_set, hx, h]
  · split
    · by_cases hx : x = id <;> simp [Obj.get_set, hx, h]
    · exact h

theorem reconcile_players_get (s : ServerState) (rand : Rand) (id : String) (data : Message)
    (k : String) (e : Player)
    (hk : (reconcile s rand id data).state.players.get k = some e) (hrole : e.type = "remote") :
    s.players.get k = some e ∨ k = id ++ "_remote" := by
  have hl : ∀ map positions, (updateLocal s.players rand id map positions).1.get k = some e →
      s.players.get k = some e := by
    intro map positions h
    unfold updateLocal at h
    cases hpos : positions.localPos with
    | none => simpa [hpos] using h
    | some p =>
      by_cases hch : hasPositionChangedSignificantly (s.players.get id) p = true
      · simp only [hpos, hch, if_true, Obj.get_set] at h
        by_cases hkid : k = id
        · simp only [hkid, if_true, Option.some.injEq] at h
          rw [← h] at hrole
          simp at hrole
        · simpa [hkid] using h
      · simpa [hpos, hch] using h
  have hr : ∀ (players : Obj Player) map positions,
      (updateRemote players id map positions).1.get k = some e →
      players.get k = some e ∨ k = id ++ "_remote" := by
    intro players map positions h
    unfold updateRemote at h
    cases hpos : positions.remotePos with
    | none => exact Or.inl (by simpa [hpos] using h)
    | some p =>
      by_cases hch : hasPositionChangedSignificantly (players.get (id ++ "_remote")) p = true
      · simp only [hpos, hch, if_true, Obj.get_set] at h
        by_cases hkid : k = id ++ "_remote"
        · exact Or.inr hkid
        · exact Or.inl (by simpa [hkid] using h)
      · exact Or.inl (by simpa [hpos, hch] using h)
  unfold reconcile at hk
  split at hk
  · have hplayers : ∀ positions : Positions,
        (updateRemote (updateLocal s.players rand id (strOr data.map "main") positions).1 id
          (strOr data.map "main") positions).1.get k = some e →
        s.players.get k = some e ∨ k = id ++ "_remote" := by
      intro positions h
      rcases hr _ _ _ h with h' | h'
      · exact Or.inl (hl _ _ h')
      · exact Or.inr h'
    simp only at hk
    split at hk
    · split at hk <;> exact hplayers _ hk
    · exact hplayers _ hk
  · exact Or.inl hk

theorem handleUpdate_remoteInv (s : ServerState) (now : Nat) (rand : Rand) (id : String)
    (data : Message) (hinv : RemoteInv s) :
    RemoteInv (handleUpdate s now rand id data).state := by
  cases hsu : (shouldUpdate s.lastUpdateTime now id).1 with
  | false =>
    rw [handleUpdate_rejected _ _ _ _ _ hsu]
    exact hinv
  | true =>
    intro k e hk hrole
    rw [handleUpdate_lastUpdateTime]
    rw [handleUpdate_accepted _ _ _ _ _ hsu] at hk
    rcases reconcile_players_get _ rand id data k e hk hrole with h | h
    · obtain ⟨id', hkey, hsome⟩ := hinv k e h hrole
      exact ⟨id', hkey, shouldUpdate_isSome _ _ _ _ hsome⟩
    · refine ⟨id, h, ?_⟩
      rw [shouldUpdate_accepted _ _ _ hsu]
      rfl

/-- Removing `id`, `<id>_remote` and the timestamp of `id` keeps the invariant. -/
theorem remove_remoteInv (s : ServerState) (id : String) (hinv : RemoteInv s) :
    RemoteInv { s with
      players := (s.players.delete id).delete (id ++ "_remote")
      lastUpdateTime := s.lastUpdateTime.delete id } := by
  intro k e hk hrole
  simp only [Obj.get_delete] at hk
  by_cases hk1 : k = id ++ "_remote"
  · simp [hk1] at hk
  · by_cases hk2 : k = id
    · simp [hk1, hk2] at hk
    · simp only [hk1, hk2, if_false] at hk
      obtain ⟨id', hkey, hsome⟩ := hinv k e hk hrole
      refine ⟨id', hkey, ?_⟩
      have hne : ¬ id' = id := by
        intro h
        exact hk1 (by rw [hkey, h])
      simpa [Obj.get_delete, hne] using hsome

theorem handleLeave_remoteInv (s : ServerState) (id : String) (hinv : RemoteInv s) :
    RemoteInv (handleLeave s id).state := by
  unfold handleLeave
  split
  · exact remove_remoteInv s id hinv
  · exact hinv

theorem sweepStep_remoteInv (now : Nat) (acc : ServerState × List Out) (k : String)
    (hinv : RemoteInv acc.1) : RemoteInv (sweepStep now acc k).1 := by
  unfold sweepStep
  split
  · split
    · exact remove_remoteInv acc.1 k hinv
    · exact hinv
  · exact hinv

theorem foldl_sweepStep_remoteInv (now : Nat) (ks : List String)
    (acc : ServerState × List Out) (hinv : RemoteInv acc.1) :
    RemoteInv (ks.foldl (sweepStep now) acc).1 := by
  induction ks generalizing acc with
  | nil => exact hinv
  | cons k rest ih =>
    rw [List.foldl_cons]
    exact ih _ (sweepStep_remoteInv now acc k hinv)

theorem handleMessage_remoteInv (ctl : ZombieController) (s : ServerState) (now : Nat)
    (rand : Rand) (m : Inbound) (hinv : RemoteInv s) :
    RemoteInv (handleMessage ctl s now rand m).state := by
  unfold handleMessage
  split
  · exact hinv
  · simp only
    split
    · exact remoteInv_of_eq hinv (processZombieGameMessages_registry _ _ _ _ _).1
        (processZombieGameMessages_registry _ _ _ _ _).2
    · split
      · exact hinv
      · exact hinv
      · split
        · exact hinv
        · split
          · exact handleJoin_remoteInv _ _ _ hinv
          · split
            · exact handleUpdate_remoteInv _ _ _ _ _ hinv
            · split
              · exact handleLeave_remoteInv _ _ hinv
              · split <;> exact hinv

/-- One turn of the event loop keeps the invariant of the remote entries. -/
theorem step_remoteInv (ctl : ZombieController) (s : ServerState) (env : Env) (e : Event)
    (hinv : RemoteInv s) : RemoteInv (step ctl s env e).state := by
  cases e with
  | connection =>
    exact remoteInv_of_eq hinv (handleConnection_registry s).1 (handleConnection_registry s).2
  | message m => exact handleMessage_remoteInv _ _ _ _ _ hinv
  | close => exact hinv
  | tick h =>
    simp only [step]
    split
    · exact remoteInv_of_eq hinv (tickCallback_registry _ _ _ _).1
        (tickCallback_registry _ _ _ _).2
    · exact hinv
  | timeout h =>
    exact remoteInv_of_eq hinv (fireTimeout_registry _ _ _).1 (fireTimeout_registry _ _ _).2
  | sweep => exact foldl_sweepStep_remoteInv _ _ _ hinv
  | adminStart d map =>
    exact remoteInv_of_eq hinv (startZombieGame_registry _ _ _ _ _ _).1
      (startZombieGame_registry _ _ _ _ _ _).2
  | adminStop =>
    exact remoteInv_of_eq hinv (stopZombieGame_registry _).1 (stopZombieGame_registry _).2
  | adminStartTest =>
    exact remoteInv_of_eq hinv (startZombieGame_registry _ _ _ _ _ _).1
      (startZombieGame_registry _ _ _ _ _ _).2

theorem run_remoteInv (ctl : ZombieController) (trace : List (Env × Event)) (s : ServerState)
    (hinv : RemoteInv s) : RemoteInv (run ctl s trace) := by
  induction trace generalizing s with
  | nil => exact hinv
  | cons ee rest ih =>
    obtain ⟨env, e⟩ := ee
    exact ih _ (step_remoteInv ctl s env e hinv)

/-- C15, as stated, fails: one `update` for `p1` that carries only `remote`,
sent to the initial state, stores `p1_remote`, and `p1` has no entry, neither
now nor before. -/
theorem C15_counterexample :
    Reachable gridController remoteOnlyState
      ∧ ServerState.init.players.get "p1" = none
      ∧ remoteOnlyState.players.get "p1" = none
      ∧ remoteOnlyState.players.get "p1_remote"
          = some { x := 7, y := 8, currentMap := "main", color := "#FF0000",
                   type := "remote" } :=
  ⟨remoteOnlyState_reachable, by decide, by decide, by decide⟩

/-- C15, amended: in every reachable state, every entry of role `remote` is
stored under a key `<id>_remote` whose `id` has a timestamp in
`lastUpdateTime`, that is, an `update` for `id` has passed the throttle gate and
`id` has neither left nor been swept since. -/
theorem C15_remote_entries (ctl : ZombieController) (s : ServerState)
    (hreach : Reachable ctl s) (k : String) (e : Player) (hk : s.players.get k = some e)
    (hrole : e.type = "remote") :
    ∃ id, k = id ++ "_remote" ∧ (s.lastUpdateTime.get id).isSome = true := by
  obtain ⟨trace, rfl⟩ := hreach
  have hinit : RemoteInv ServerState.init := by
    intro k e hk
    simp [ServerState.init, Obj.get] at hk
  exact run_remoteInv ctl trace ServerState.init hinit k e hk hrole

/-- C15 amended, at an instance: the entry `p1_remote` of `remoteOnlyState`. -/
theorem C15_remote_entries_witness :
    ∃ id, "p1_remote" = id ++ "_remote"
      ∧ (remoteOnlyState.lastUpdateTime.get id).isSome = true :=
  C15_remote_entries gridController remoteOnlyState remoteOnlyState_reachable "p1_remote"
    { x := 7, y := 8, currentMap := "main", color := "#FF0000", type := "remote" }
    (by decide) rfl

/-! ## The slow-down of a food pickup -/


/-- The handlers of `join`, `update` and `leave` and the sweep change only
`players` and `lastUpdateTime`. -/
theorem handleJoin_frame (s : ServerState) (rand : Rand) (id : String) :
    ∃ P L, (handleJoin s rand id).state = { s with players := P, lastUpdateTime := L } := by
  unfold handleJoin
  split
  · exact ⟨s.players, s.lastUpdateTime, rfl⟩
  · exact ⟨_, s.lastUpdateTime, rfl⟩

theorem reconcile_frame (s : ServerState) (rand : Rand) (id : String) (data : Message) :
    ∃ P L, (reconcile s rand id data).state = { s with players := P, lastUpdateTime := L } := by
  unfold reconcile
  split
  · simp only
    split
    · split <;> exact ⟨_, s.lastUpdateTime, rfl⟩
    · exact ⟨_, s.lastUpdateTime, rfl⟩
  · exact ⟨s.players, s.lastUpdateTime, rfl⟩

theorem handleUpdate_frame (s : ServerState) (now : Nat) (rand : Rand) (id : String)
    (data : Message) :
    ∃ P L, (handleUpdate s now rand id data).state
      = { s with players := P, lastUpdateTime := L } := by
  cases hsu : (shouldUpdate s.lastUpdateTime now id).1 with
  | false =>
    rw [handleUpdate_rejected _ _ _ _ _ hsu]
    exact ⟨s.players, s.lastUpdateTime, rfl⟩
  | true =>
    rw [handleUpdate_accepted _ _ _ _ _ hsu]
    obtain ⟨P, L, h⟩ := reconcile_frame
      { s with lastUpdateTime := (shouldUpdate s.lastUpdateTime now id).2 } rand id data
    exact ⟨P, L, h⟩

theorem handleLeave_frame (s : ServerState) (id : String) :
    ∃ P L, (handleLeave s id).state = { s with players := P, lastUpdateTime := L } := by
  unfold handleLeave
  split
  · exact ⟨_, _, rfl⟩
  · exact ⟨s.players, s.lastUpdateTime, rfl⟩

theorem sweepStep_frame (now : Nat) (acc : ServerState × List Out) (k : String) :
    ∃ P L, (sweepStep now acc k).1 = { acc.1 with players := P, lastUpdateTime := L } := by
  unfold sweepStep
  split
  · split
    · exact ⟨_, _, rfl⟩
    · exact ⟨acc.1.players, acc.1.lastUpdateTime, rfl⟩
  · exact ⟨acc.1.players, acc.1.lastUpdateTime, rfl⟩

theorem foldl_sweepStep_frame (now : Nat) (ks : List String) (acc : ServerState × List Out) :
    ∃ P L, (ks.foldl (sweepStep now) acc).1
      = { acc.1 with players := P, lastUpdateTime := L } := by
  induction ks generalizing acc with
  | nil => exact ⟨acc.1.players, acc.1.lastUpdateTime, rfl⟩
  | cons k rest ih =>
    rw [List.foldl_cons]
    obtain ⟨P, L, h⟩ := ih (sweepStep now acc k)
    obtain ⟨P', L', h'⟩ := sweepStep_frame now acc k
    exact ⟨P, L, by rw [h, h']⟩

/-- The handler of a message that is not for the zombie game changes only
`players` and `lastUpdateTime`. -/
theorem handleMessage_frame (ctl : ZombieController) (s : ServerState) (now : Nat)
    (rand : Rand) (data : Message)
    (hz : ¬ (data.type = "zombie_game_update" ∨ data.type = "zombie_game_food")) :
    ∃ P L, (handleMessage ctl s now rand (Inbound.msg data)).state
      = { s with players := P, lastUpdateTime := L } := by
  have hz' : ¬ ((scaleGlobal data).type = "zombie_game_update"
      ∨ (scaleGlobal data).type = "zombie_game_food") := by
    rw [scaleGlobal_type]; exact hz
  unfold handleMessage
  simp only [hz', if_false]
  split
  · exact ⟨s.players, s.lastUpdateTime, rfl⟩
  · exact ⟨s.players, s.lastUpdateTime, rfl⟩
  · split
    · exact ⟨s.players, s.lastUpdateTime, rfl⟩
    · split
      · exact handleJoin_frame _ _ _
      · split
        · exact handleUpdate_frame _ _ _ _ _
        · split
          · exact handleLeave_frame _ _
          · split <;> exact ⟨s.players, s.lastUpdateTime, rfl⟩

theorem sessionInv_frame {s : ServerState} (hinv : SessionInv s) (P : Obj Player)
    (L : Obj Nat) : SessionInv { s with players := P, lastUpdateTime := L } :=
  hinv

theorem startZombieUpdates_sessionInv (s : ServerState)
    (hfresh : ∀ t ∈ s.timeouts, t.1 < s.nextHandle) : SessionInv (startZombieUpdates s) := by
  refine ⟨fun _ => by rw [startZombieUpdates_slot]; rfl, ?_⟩
  have hto : (startZombieUpdates s).timeouts = s.timeouts
      ∧ (startZombieUpdates s).nextHandle = s.nextHandle + 1 := by
    unfold startZombieUpdates
    cases s.zombieUpdateInterval <;> exact ⟨rfl, rfl⟩
  rw [hto.1, hto.2]
  intro t ht
  exact Nat.lt_succ_of_lt (hfresh t ht)

theorem startZombieGame_sessionInv (ctl : ZombieController) (s : ServerState) (now : Nat)
    (rand : Rand) (d : Nat) (map : String) (hinv : SessionInv s) :
    SessionInv (startZombieGame ctl s now rand d map).1 := by
  unfold startZombieGame
  split
  · exact hinv
  · exact startZombieUpdates_sessionInv _ hinv.2

theorem stopZombieGame_sessionInv (s : ServerState) (hinv : SessionInv s) :
    SessionInv (stopZombieGame s).1 := by
  have hshape : (stopZombieGame s).1.zombieGame.isActive = false
      ∧ (stopZombieGame s).1.timeouts = s.timeouts
      ∧ (stopZombieGame s).1.nextHandle = s.nextHandle := by
    unfold stopZombieGame
    cases s.zombieUpdateInterval <;> exact ⟨rfl, rfl, rfl⟩
  refine ⟨fun h => ?_, ?_⟩
  · rw [hshape.1] at h
    cases h
  · rw [hshape.2.1, hshape.2.2]
    exact hinv.2

theorem processFood_sessionInv (s : ServerState) (m : Message) (hinv : SessionInv s) :
    SessionInv (processFood s m).1 := by
  have hshape : (processFood s m).1.zombieUpdateInterval = some s.nextHandle
      ∧ (processFood s m).1.timeouts
          = s.timeouts ++ [(s.nextHandle + 1, Timeout.restore
              (updateIntervals s.zombieGame.difficulty))]
      ∧ (processFood s m).1.nextHandle = s.nextHandle + 2 := by
    unfold processFood
    cases s.zombieUpdateInterval <;> exact ⟨rfl, rfl, rfl⟩
  refine ⟨fun _ => by rw [hshape.1]; rfl, ?_⟩
  rw [hshape.2.1, hshape.2.2]
  intro t ht
  rcases List.mem_append.1 ht with h | h
  · have := hinv.2 t h
    omega
  · rw [List.mem_singleton.1 h]
    simp

theorem restoreCallback_sessionInv (s : ServerState) (old : Option Nat)
    (hinv : SessionInv s) : SessionInv (restoreCallback s old).1 := by
  unfold restoreCallback
  split
  · refine ⟨fun _ => rfl, ?_⟩
    intro t ht
    have := hinv.2 t ht
    simp only [setInterval, clearInterval]
    omega
  · exact hinv

theorem updateZombiePositions_session (ctl : ZombieController) (s : ServerState) (now : Nat)
    (seed : Nat) :
    (updateZombiePositions ctl s now seed).1.zombieGame.isActive = s.zombieGame.isActive
      ∧ (updateZombiePositions ctl s now seed).1.zombieUpdateInterval = s.zombieUpdateInterval
      ∧ (updateZombiePositions ctl s now seed).1.timeouts = s.timeouts
      ∧ (updateZombiePositions ctl s now seed).1.nextHandle = s.nextHandle := by
  unfold updateZombiePositions
  split <;> exact ⟨rfl, rfl, rfl, rfl⟩

theorem tickCallback_sessionInv (ctl : ZombieController) (s : ServerState) (now : Nat)
    (seed : Nat) (hinv : SessionInv s) : SessionInv (tickCallback ctl s now seed).1 := by
  unfold tickCallback
  split
  · obtain ⟨h1, h2, h3, h4⟩ := updateZombiePositions_session ctl s now seed
    unfold SessionInv
    rw [h1, h2, h3, h4]
    exact hinv
  · rename_i hidle
    cases hh : s.zombieUpdateInterval with
    | none => exact hinv
    | some h => exact ⟨fun hact => absurd hact hidle, hinv.2⟩

theorem processZombieGameMessages_sessionInv (ctl : ZombieController) (s : ServerState)
    (now : Nat) (rand : Rand) (m : Message) (hinv : SessionInv s) :
    SessionInv (processZombieGameMessages ctl s now rand m).1 := by
  unfold processZombieGameMessages
  split
  · split
    · split
      · exact startZombieGame_sessionInv _ _ _ _ _ _ hinv
      · exact hinv
    · split
      · split
        · exact stopZombieGame_sessionInv _ hinv
        · exact hinv
      · split
        · split <;> exact hinv
        · exact hinv
  · split
    · exact processFood_sessionInv _ _ hinv
    · exact hinv

theorem handleMessage_sessionInv (ctl : ZombieController) (s : ServerState) (now : Nat)
    (rand : Rand) (m : Inbound) (hinv : SessionInv s) :
    SessionInv (handleMessage ctl s now rand m).state := by
  cases m with
  | malformed => exact hinv
  | msg data =>
    by_cases hz : data.type = "zombie_game_update" ∨ data.type = "zombie_game_food"
    · have hz' : (scaleGlobal data).type = "zombie_game_update"
          ∨ (scaleGlobal data).type = "zombie_game_food" := by
        rw [scaleGlobal_type]; exact hz
      simp only [handleMessage, hz', if_true]
      exact processZombieGameMessages_sessionInv _ _ _ _ _ hinv
    · obtain ⟨P, L, h⟩ := handleMessage_frame ctl s now rand data hz
      rw [h]
      exact sessionInv_frame hinv P L

theorem fireTimeout_sessionInv (s : ServerState) (now h : Nat) (hinv : SessionInv s) :
    SessionInv (fireTimeout s now h).1 := by
  have hs1 : SessionInv { s with timeouts := s.timeouts.filter (fun t => !(t.1 == h)) } :=
    ⟨hinv.1, fun t ht => hinv.2 t (List.mem_of_mem_filter ht)⟩
  unfold fireTimeout
  split
  · exact hinv
  · split
    · exact restoreCallback_sessionInv _ _ hs1
    · exact hs1
    · exact hs1

theorem handleConnection_sessionInv (s : ServerState) (hinv : SessionInv s) :
    SessionInv (handleConnection s) := by
  unfold handleConnection
  simp only
  split
  · rename_i h
    simp [initializeZombieGame] at h
  · exact ⟨fun h => by simp [initializeZombieGame] at h, hinv.2⟩

/-- One turn of the event loop keeps the session invariant. -/
theorem step_sessionInv (ctl : ZombieController) (s : ServerState) (env : Env) (e : Event)
    (hinv : SessionInv s) : SessionInv (step ctl s env e).state := by
  cases e with
  | connection => exact handleConnection_sessionInv s hinv
  | message m => exact handleMessage_sessionInv _ _ _ _ _ hinv
  | close => exact hinv
  | tick h =>
    simp only [step]
    split
    · exact tickCallback_sessionInv _ _ _ _ hinv
    · exact hinv
  | timeout h => exact fireTimeout_sessionInv _ _ _ hinv
  | sweep =>
    obtain ⟨P, L, h⟩ := foldl_sweepStep_frame env.now (Obj.keys s.lastUpdateTime) (s, [])
    simp only [step, sweep]
    rw [h]
    exact sessionInv_frame hinv P L
  | adminStart d map => exact startZombieGame_sessionInv _ _ _ _ _ _ hinv
  | adminStop => exact stopZombieGame_sessionInv _ hinv
  | adminStartTest => exact startZombieGame_sessionInv _ _ _ _ _ _ hinv

theorem run_sessionInv (ctl : ZombieController) (trace : List (Env × Event)) (s : ServerState)
    (hinv : SessionInv s) : SessionInv (run ctl s trace) := by
  induction trace generalizing s with
  | nil => exact hinv
  | cons ee rest ih =>
    obtain ⟨env, e⟩ := ee
    exact ih _ (step_sessionInv ctl s env e hinv)

theorem reachable_sessionInv (ctl : ZombieController) (s : ServerState)
    (hreach : Reachable ctl s) : SessionInv s := by
  obtain ⟨trace, rfl⟩ := hreach
  exact run_sessionInv ctl trace ServerState.init
    ⟨fun h => by simp [ServerState.init] at h, fun t ht => by simp [ServerState.init] at ht⟩

theorem reachable_timerInv (ctl : ZombieController) (s : ServerState)
    (hreach : Reachable ctl s) : TimerInv s := by
  obtain ⟨trace, rfl⟩ := hreach
  exact run_timerInv ctl trace ServerState.init (timerInv_of_nil rfl)

theorem find?_append_fresh (l : List (Nat × Timeout)) (h : Nat) (cb : Timeout)
    (hfresh : ∀ t ∈ l, t.1 < h) :
    (l ++ [(h, cb)]).find? (fun t => t.1 == h) = some (h, cb) := by
  induction l with
  | nil => simp
  | cons t rest ih =>
    have ht : t.1 < h := hfresh t (List.mem_cons_self _ _)
    have hne : (t.1 == h) = false := by
      simp only [beq_eq_false_iff_ne, ne_eq]
      omega
    rw [List.cons_append, List.find?_cons, hne]
    exact ih (fun t' ht' => hfresh t' (List.mem_cons_of_mem _ ht'))

/-- C12 (slow-down and restore): on a reachable session of difficulty `d` in
`{1, 2, 3}`, a `zombie_game_food` message leaves `zombieGame` (the active flag
included) unchanged, makes the one live tick timer a new one of period
`baseInterval d + 300` held in `zombieUpdateInterval`, and arms the restore
callback that captured `baseInterval d`.  When that callback later runs on a
reachable state whose session is active, the one live tick timer becomes a new
one of period `baseInterval d`, `zombieGame` is unchanged and exactly one
`zombie_speed_normal` command is broadcast. -/
theorem C12_food_slowdown (ctl : ZombieController) (s : ServerState) (now : Nat)
    (rand : Rand) (m : Message) (d : Nat) (hreach : Reachable ctl s)
    (hd : d = 1 ∨ d = 2 ∨ d = 3) (hdiff : s.zombieGame.difficulty = d)
    (htype : m.type = "zombie_game_food") :
    (handleMessage ctl s now rand (Inbound.msg m)).state.zombieGame = s.zombieGame
      ∧ (handleMessage ctl s now rand (Inbound.msg m)).state.intervals
          = [(s.nextHandle, some (baseInterval d + 300))]
      ∧ (handleMessage ctl s now rand (Inbound.msg m)).state.zombieUpdateInterval
          = some s.nextHandle
      ∧ pendingTimeout (handleMessage ctl s now rand (Inbound.msg m)).state (s.nextHandle + 1)
          = some (Timeout.restore (some (baseInterval d)))
      ∧ ∀ (s2 : ServerState) (now2 k : Nat), Reachable ctl s2 →
          s2.zombieGame.isActive = true →
          pendingTimeout s2 k = some (Timeout.restore (some (baseInterval d))) →
          (fireTimeout s2 now2 k).1.intervals = [(s2.nextHandle, some (baseInterval d))]
            ∧ (fireTimeout s2 now2 k).1.zombieUpdateInterval = some s2.nextHandle
            ∧ (fireTimeout s2 now2 k).1.zombieGame = s2.zombieGame
            ∧ (fireTimeout s2 now2 k).2
                = [Out.broadcast Payload.command_zombie_speed_normal] := by
  have hscale : scaleGlobal m = m := by
    simp [scaleGlobal, htype]
  have hmsg : (handleMessage ctl s now rand (Inbound.msg m)).state = (processFood s m).1 := by
    simp [handleMessage, hscale, htype, processZombieGameMessages]
  have hint : updateIntervals d = some (baseInterval d) := by
    rcases hd with h | h | h <;> subst h <;> rfl
  have htimer := reachable_timerInv ctl s hreach
  have hsess := reachable_sessionInv ctl s hreach
  rw [hmsg]
  refine ⟨?_, ?_, ?_, ?_, ?_⟩
  · unfold processFood
    cases s.zombieUpdateInterval <;> rfl
  · unfold processFood
    cases hh : s.zombieUpdateInterval with
    | none => simp [setTimeout, setInterval, htimer.nil_of_none hh, hdiff, hint]
    | some h =>
      simp [setTimeout, setInterval, clearInterval, htimer.filter_held hh, hdiff, hint]
  · unfold processFood
    cases s.zombieUpdateInterval <;> rfl
  · have hto : (processFood s m).1.timeouts
        = s.timeouts ++ [(s.nextHandle + 1, Timeout.restore (some (baseInterval d)))] := by
      unfold processFood
      rw [hdiff, hint]
      cases s.zombieUpdateInterval <;> rfl
    unfold pendingTimeout
    rw [hto, find?_append_fresh _ _ _ (fun t ht => Nat.lt_succ_of_lt (hsess.2 t ht))]
    rfl
  · intro s2 now2 k hreach2 hactive2 hpending
    have htimer2 := reachable_timerInv ctl s2 hreach2
    have hsess2 := reachable_sessionInv ctl s2 hreach2
    obtain ⟨h, hh⟩ := Option.isSome_iff_exists.1 (hsess2.1 hactive2)
    simp [fireTimeout, hpending, restoreCallback, hactive2, hh, setInterval, clearInterval,
      htimer2.filter_held hh]

/-- C12, at an instance: a food pickup on the game started with difficulty 1
slows the tick to 1500 ms, and the restore callback it armed (handle 2) brings
it back to 1200 ms. -/
theorem C12_food_slowdown_witness :
    (handleMessage gridController startedGame 0 zeroRand (Inbound.msg foodMsg)).state.intervals
        = [(1, some (baseInterval 1 + 300))]
      ∧ (fireTimeout (handleMessage gridController startedGame 0 zeroRand
          (Inbound.msg foodMsg)).state 3000 2).1.intervals = [(3, some (baseInterval 1))] :=
  ⟨(C12_food_slowdown gridController startedGame 0 zeroRand foodMsg 1 startedGame_reachable
      (Or.inl rfl) rfl rfl).2.1,
   ((C12_food_slowdown gridController startedGame 0 zeroRand foodMsg 1 startedGame_reachable
      (Or.inl rfl) rfl rfl).2.2.2.2
      (handleMessage gridController startedGame 0 zeroRand (Inbound.msg foodMsg)).state 3000 2
      ⟨[(exampleEnv, Event.adminStartTest), (exampleEnv, Event.message (Inbound.msg foodMsg))],
        rfl⟩ rfl (by decide)).1⟩

theorem catchState_players :
    playersInMap catchState
      = [("p", { x := 2, y := 2, currentMap := "escom_cafeteria",
                 color := generateRandomColor zeroDraw, type := "local" })] := by
  rfl

theorem findValidPosition_zero (idx : Nat) :
    findValidPosition gridController "escom_cafeteria" zeroRand idx 0 = (⟨2, 2⟩, idx + 2) := by
  rw [findValidPosition]
  simp [gridController, zeroRand, zeroDraw]

theorem catchState_zombies :
    catchState.zombieGame.zombies
      = [{ id := "zombie_0", position := ⟨2, 2⟩, target := none, difficulty := 1 },
         { id := "zombie_1", position := ⟨2, 2⟩, target := none, difficulty := 1 }] := by
  have h : catchState.zombieGame.zombies
      = spawnZombies gridController "escom_cafeteria" 1 zeroRand 2 0 0 := by
    rfl
  rw [h]
  simp [spawnZombies, findValidPosition_zero]
  decide



/-- A tick never touches `caughtPlayers`. -/
theorem updateZombiePositions_caughtPlayers (ctl : ZombieController) (s : ServerState)
    (now seed : Nat) :
    (updateZombiePositions ctl s now seed).1.caughtPlayers = s.caughtPlayers := by
  unfold updateZombiePositions
  split <;> rfl

/-- A tick of `gridController` with the one in-map player `p` at `(2, 2)` and two
hunters at `(2, 2)`: both stay, both target `p`, and each emits `caught`. -/
theorem tick_two_hunters (s : ServerState) (pl : Player) (now seed : Nat)
    (t0 t1 : Option String) (hact : s.zombieGame.isActive = true)
    (hin : playersInMap s = [("p", pl)]) (hx : pl.x = 2) (hy : pl.y = 2)
    (hz : s.zombieGame.zombies
      = [{ id := "zombie_0", position := ⟨2, 2⟩, target := t0, difficulty := 1 },
         { id := "zombie_1", position := ⟨2, 2⟩, target := t1, difficulty := 1 }]) :
    (updateZombiePositions gridController s now seed).1.zombieGame.zombies
        = [{ id := "zombie_0", position := ⟨2, 2⟩, target := some "p", difficulty := 1 },
           { id := "zombie_1", position := ⟨2, 2⟩, target := some "p", difficulty := 1 }]
      ∧ caughtBroadcasts "p" (updateZombiePositions gridController s now seed).2 = 2 := by
  unfold updateZombiePositions
  simp [hact, hin, hz, List.enum, List.enumFrom, chaseStep, nearestPlayer, nearestStep,
    gridController, towards, hx, hy, caughtBroadcasts, syncZombiesWithAllClients]

/-- C11, evaluated where it fails: with `p` at `(2, 2)` and both hunters within
the catch box, one tick emits two `caught` commands for `p` and leaves
`caughtPlayers` empty, and the next tick emits two more. -/
theorem C11_caught_not_deduplicated :
    caughtBroadcasts "p" (updateZombiePositions gridController catchState 2000 0).2 = 2
      ∧ (updateZombiePositions gridController catchState 2000 0).1.caughtPlayers = []
      ∧ caughtBroadcasts "p" (updateZombiePositions gridController
          (updateZombiePositions gridController catchState 2000 0).1 3200 0).2 = 2 := by
  have h1 := tick_two_hunters catchState _ 2000 0 none none rfl catchState_players rfl rfl
    catchState_zombies
  have hin : playersInMap (updateZombiePositions gridController catchState 2000 0).1
      = playersInMap catchState := by
    unfold updateZombiePositions
    rfl
  have hact : (updateZombiePositions gridController catchState 2000 0).1.zombieGame.isActive
      = true := by
    unfold updateZombiePositions
    rfl
  have h2 := tick_two_hunters (updateZombiePositions gridController catchState 2000 0).1 _
    3200 0 (some "p") (some "p") hact (hin.trans catchState_players) rfl rfl h1.1
  exact ⟨h1.2, by rw [updateZombiePositions_caughtPlayers]; rfl, h2.2⟩

/-! ## The spawn search -/


theorem findValidPosition_accept (ctl : ZombieController) (map : String) (rand : Rand)
    (idx attempt : Nat) (hle : attempt ≤ 100)
    (hvalid : ctl.isValidMove (candidate rand idx 0).1 (candidate rand idx 0).2 map = true) :
    findValidPosition ctl map rand idx attempt
      = (⟨(candidate rand idx 0).1, (candidate rand idx 0).2⟩, idx + 2) := by
  have hgt : ¬ attempt > 100 := by omega
  rw [findValidPosition]
  simp only [candidate, Nat.mul_zero, Nat.add_zero] at hvalid
  simp [hgt, hvalid, candidate]

theorem findValidPosition_reject (ctl : ZombieController) (map : String) (rand : Rand)
    (idx attempt : Nat) (hle : attempt ≤ 100)
    (hinvalid : ctl.isValidMove (candidate rand idx 0).1 (candidate rand idx 0).2 map = false) :
    findValidPosition ctl map rand idx attempt
      = findValidPosition ctl map rand (idx + 2) (attempt + 1) := by
  have hgt : ¬ attempt > 100 := by omega
  rw [findValidPosition]
  simp only [candidate, Nat.mul_zero, Nat.add_zero] at hinvalid
  simp [hgt, hinvalid]

theorem candidate_succ (rand : Rand) (idx k : Nat) :
    candidate rand (idx + 2) k = candidate rand idx (k + 1) := by
  unfold candidate
  have h1 : idx + 2 + 2 * k = idx + 2 * (k + 1) := by ring
  rw [h1]

/-- The search returns the first traversable candidate among those of rank
`0` to `100 - attempt`. -/
theorem findValidPosition_first (ctl : ZombieController) (map : String) (rand : Rand)
    (n idx attempt : Nat) (hle : attempt + n ≤ 100)
    (hbefore : ∀ j < n,
      ctl.isValidMove (candidate rand idx j).1 (candidate rand idx j).2 map = false)
    (hvalid : ctl.isValidMove (candidate rand idx n).1 (candidate rand idx n).2 map = true) :
    findValidPosition ctl map rand idx attempt
      = (⟨(candidate rand idx n).1, (candidate rand idx n).2⟩, idx + 2 * n + 2) := by
  induction n generalizing idx attempt with
  | zero => exact findValidPosition_accept ctl map rand idx attempt (by omega) hvalid
  | succ n ih =>
    rw [findValidPosition_reject ctl map rand idx attempt (by omega)
      (hbefore 0 (Nat.succ_pos n))]
    have := ih (idx + 2) (attempt + 1) (by omega)
      (fun j hj => by rw [candidate_succ]; exact hbefore (j + 1) (by omega))
      (by rw [candidate_succ]; exact hvalid)
    rw [this, candidate_succ]
    have h2 : idx + 2 + 2 * n + 2 = idx + 2 * (n + 1) + 2 := by ring
    rw [h2]

/-- The search falls back to `(20, 15)` when none of the candidates of rank `0`
to `100 - attempt` is traversable. -/
theorem findValidPosition_fallback (ctl : ZombieController) (map : String) (rand : Rand)
    (n idx attempt : Nat) (hn : attempt + n = 101)
    (hall : ∀ j < n,
      ctl.isValidMove (candidate rand idx j).1 (candidate rand idx j).2 map = false) :
    findValidPosition ctl map rand idx attempt = (⟨20, 15⟩, idx + 2 * n) := by
  induction n generalizing idx attempt with
  | zero =>
    have hgt : attempt > 100 := by omega
    rw [findValidPosition]
    simp [hgt]
  | succ n ih =>
    rw [findValidPosition_reject ctl map rand idx attempt (by omega)
      (hall 0 (Nat.succ_pos n))]
    rw [ih (idx + 2) (attempt + 1) (by omega)
      (fun j hj => by rw [candidate_succ]; exact hall (j + 1) (by omega))]
    have h2 : idx + 2 + 2 * n = idx + 2 * (n + 1) := by ring
    rw [h2]

theorem candidate_lateRand_early (k : Nat) (hk : k < 100) : candidate lateRand 0 k = (2, 2) := by
  have h1 : 0 + 2 * k < 200 := by omega
  have h2 : 0 + 2 * k + 1 < 200 := by omega
  simp only [candidate, lateRand, if_pos h1, if_pos h2]
  simp [zeroDraw]

theorem candidate_lateRand_100 : candidate lateRand 0 100 = (19, 19) := by
  simp only [candidate, lateRand, halfDraw]
  norm_num

/-- C20, as stated, fails: with a map on which only `x = 19` is traversable
and draws that give `(2, 2)` a hundred times and then `(19, 19)`, none of the
first 100 candidates is traversable, yet the search tests a 101st candidate and
returns it, not the fallback `(20, 15)`. -/
theorem C20_counterexample :
    (∀ k < 100, pickyController.isValidMove (candidate lateRand 0 k).1
        (candidate lateRand 0 k).2 "escom_cafeteria" = false)
      ∧ findValidPosition pickyController "escom_cafeteria" lateRand 0 0
          = (⟨19, 19⟩, 202)
      ∧ (findValidPosition pickyController "escom_cafeteria" lateRand 0 0).1 ≠ ⟨20, 15⟩ := by
  have hearly : ∀ k < 100, pickyController.isValidMove (candidate lateRand 0 k).1
      (candidate lateRand 0 k).2 "escom_cafeteria" = false := by
    intro k hk
    rw [candidate_lateRand_early k hk]
    decide
  have h := findValidPosition_first pickyController "escom_cafeteria" lateRand 100 0 0
    (by omega) hearly (by rw [candidate_lateRand_100]; decide)
  rw [candidate_lateRand_100] at h
  refine ⟨hearly, ?_, ?_⟩
  · rw [h]
    norm_num
  · rw [h]
    norm_num

/-- Every candidate has both coordinates in `[2, 36]`. -/
theorem candidate_range (rand : Rand) (idx k : Nat) :
    (2 ≤ (candidate rand idx k).1 ∧ (candidate rand idx k).1 ≤ 36)
      ∧ (2 ≤ (candidate rand idx k).2 ∧ (candidate rand idx k).2 ≤ 36) := by
  have key : ∀ r : Draw, 0 ≤ ⌊r.val * 35⌋ ∧ ⌊r.val * 35⌋ ≤ 34 := by
    intro r
    constructor
    · exact Int.floor_nonneg.2 (mul_nonneg r.nonneg (by norm_num))
    · have h : ⌊r.val * 35⌋ < 35 := by
        rw [Int.floor_lt]
        have := r.lt_one
        push_cast
        linarith
      omega
  have h1 := key (rand (idx + 2 * k))
  have h2 := key (rand (idx + 2 * k + 1))
  simp only [candidate]
  omega

/-- C20, amended: for any random draws and any traversability predicate the
search returns after testing at most 101 candidates, each with integer `x` and
`y` in `[2, 36]`.  Either some candidate of rank `n ≤ 100` is the first
traversable one, and the search returns it after `n + 1` tests; or none of the
101 candidates is traversable, and the search returns the fallback `(20, 15)`,
untested, after 101 tests. -/
theorem C20_spawn_search (ctl : ZombieController) (map : String) (rand : Rand)
    (idx : Nat) :
    ((∃ n, n ≤ 100
        ∧ (∀ j < n,
            ctl.isValidMove (candidate rand idx j).1 (candidate rand idx j).2 map = false)
        ∧ ctl.isValidMove (candidate rand idx n).1 (candidate rand idx n).2 map = true
        ∧ findValidPosition ctl map rand idx 0
            = (⟨(candidate rand idx n).1, (candidate rand idx n).2⟩, idx + 2 * (n + 1)))
      ∨ ((∀ j < 101,
            ctl.isValidMove (candidate rand idx j).1 (candidate rand idx j).2 map = false)
        ∧ findValidPosition ctl map rand idx 0 = (⟨20, 15⟩, idx + 2 * 101)))
      ∧ ∀ k, (2 ≤ (candidate rand idx k).1 ∧ (candidate rand idx k).1 ≤ 36)
          ∧ (2 ≤ (candidate rand idx k).2 ∧ (candidate rand idx k).2 ≤ 36) := by
  refine ⟨?_, candidate_range rand idx⟩
  by_cases h : ∃ k, k < 101
      ∧ ctl.isValidMove (candidate rand idx k).1 (candidate rand idx k).2 map = true
  · left
    have hlt : Nat.find h < 101 := (Nat.find_spec h).1
    have hbefore : ∀ j < Nat.find h,
        ctl.isValidMove (candidate rand idx j).1 (candidate rand idx j).2 map = false := by
      intro j hj
      have hmin := Nat.find_min h hj
      cases hv : ctl.isValidMove (candidate rand idx j).1 (candidate rand idx j).2 map with
      | false => rfl
      | true => exact absurd ⟨lt_trans hj hlt, hv⟩ hmin
    refine ⟨Nat.find h, by omega, hbefore, (Nat.find_spec h).2, ?_⟩
    rw [findValidPosition_first ctl map rand (Nat.find h) idx 0 (by omega) hbefore
      (Nat.find_spec h).2]
    have h2 : idx + 2 * Nat.find h + 2 = idx + 2 * (Nat.find h + 1) := by ring
    rw [h2]
  · right
    have hall : ∀ j < 101,
        ctl.isValidMove (candidate rand idx j).1 (candidate rand idx j).2 map = false := by
      intro j hj
      cases hv : ctl.isValidMove (candidate rand idx j).1 (candidate rand idx j).2 map with
      | false => rfl
      | true => exact absurd ⟨j, hj, hv⟩ h
    exact ⟨hall, findValidPosition_fallback ctl map rand 101 idx 0 rfl hall⟩

/-! ## Where the hunters spawn -/


/-- The search, with `n` attempts left, returns a traversable coordinate, or
the fallback `(20, 15)` after `n` rejected candidates. -/
theorem findValidPosition_valid_or_fallback (ctl : ZombieController) (map : String)
    (rand : Rand) (n idx attempt : Nat) (hn : attempt + n = 101) :
    (∃ x y : ℤ, (findValidPosition ctl map rand idx attempt).1 = ⟨x, y⟩
        ∧ ctl.isValidMove x y map = true)
      ∨ ((findValidPosition ctl map rand idx attempt).1 = ⟨20, 15⟩
        ∧ ∀ j < n,
          ctl.isValidMove (candidate rand idx j).1 (candidate rand idx j).2 map = false) := by
  induction n generalizing idx attempt with
  | zero =>
    refine Or.inr ⟨?_, fun j hj => absurd hj (Nat.not_lt_zero j)⟩
    rw [findValidPosition_fallback ctl map rand 0 idx attempt hn
      (fun j hj => absurd hj (Nat.not_lt_zero j))]
  | succ n ih =>
    cases hv : ctl.isValidMove (candidate rand idx 0).1 (candidate rand idx 0).2 map with
    | true =>
      refine Or.inl ⟨(candidate rand idx 0).1, (candidate rand idx 0).2, ?_, hv⟩
      rw [findValidPosition_accept ctl map rand idx attempt (by omega) hv]
    | false =>
      rw [findValidPosition_reject ctl map rand idx attempt (by omega) hv]
      rcases ih (idx + 2) (attempt + 1) (by omega) with h | ⟨h1, h2⟩
      · exact Or.inl h
      · refine Or.inr ⟨h1, ?_⟩
        intro j hj
        cases j with
        | zero => exact hv
        | succ j =>
          rw [← candidate_succ]
          exact h2 j (by omega)

/-- Every zombie pushed by the spawn loop is at a traversable coordinate, or
at the fallback `(20, 15)` after 101 rejected candidates. -/
theorem spawnZombies_positions (ctl : ZombieController) (map : String) (d : Nat)
    (rand : Rand) (n i idx : Nat) :
    ∀ z ∈ spawnZombies ctl map d rand n i idx,
      (∃ x y : ℤ, z.position = ⟨x, y⟩ ∧ ctl.isValidMove x y map = true)
        ∨ (z.position = ⟨20, 15⟩
          ∧ ∃ idx', ∀ j < 101,
            ctl.isValidMove (candidate rand idx' j).1 (candidate rand idx' j).2 map
              = false) := by
  induction n generalizing i idx with
  | zero => simp [spawnZombies]
  | succ n ih =>
    intro z hz
    simp only [spawnZombies, List.mem_cons] at hz
    rcases hz with h | h
    · subst h
      rcases findValidPosition_valid_or_fallback ctl map rand 101 idx 0 rfl with
        ⟨x, y, hxy, hv⟩ | ⟨h1, h2⟩
      · exact Or.inl ⟨x, y, by simp [hxy], hv⟩
      · exact Or.inr ⟨by simp [h1], idx, h2⟩
    · exact ih _ _ z h

theorem findValidPosition_wall (map : String) (rand : Rand) (idx : Nat) :
    findValidPosition wallController map rand idx 0 = (⟨20, 15⟩, idx + 2 * 101) :=
  findValidPosition_fallback wallController map rand 101 idx 0 rfl (fun _ _ => rfl)

/-- C21, as stated, fails: on a map without any traversable cell, a start from
the initial state puts both hunters at the fallback `(20, 15)`, which the
predicate rejects. -/
theorem C21_counterexample :
    ServerState.init.zombieGame.isActive = false
      ∧ (startZombieGame wallController ServerState.init 0 zeroRand 1
          "escom_cafeteria").1.zombieGame.zombies.map Zombie.position
          = [⟨20, 15⟩, ⟨20, 15⟩]
      ∧ wallController.isValidMove 20 15 "escom_cafeteria" = false := by
  refine ⟨rfl, ?_, rfl⟩
  have h : (startZombieGame wallController ServerState.init 0 zeroRand 1
      "escom_cafeteria").1.zombieGame.zombies
      = spawnZombies wallController "escom_cafeteria" 1 zeroRand 2 0 0 := by
    rfl
  rw [h]
  simp [spawnZombies, findValidPosition_wall]

/-- C21, amended: after a start from idle, with any map, random draws and
traversability predicate, every hunter is at a coordinate that the predicate
reports traversable on that map, or at the fallback `(20, 15)`, which is taken
unchecked when 101 successive candidates have been rejected. -/
theorem C21_spawn_positions (ctl : ZombieController) (s : ServerState) (now : Nat)
    (rand : Rand) (d : Nat) (map : String) (hidle : s.zombieGame.isActive = false) :
    ∀ z ∈ (startZombieGame ctl s now rand d map).1.zombieGame.zombies,
      (∃ x y : ℤ, z.position = ⟨x, y⟩ ∧ ctl.isValidMove x y map = true)
        ∨ (z.position = ⟨20, 15⟩
          ∧ ∃ idx, ∀ j < 101,
            ctl.isValidMove (candidate rand idx j).1 (candidate rand idx j).2 map
              = false) := by
  have hstart : (startZombieGame ctl s now rand d map).1.zombieGame.zombies
      = spawnZombies ctl map d rand ((zombieCount d).getD 2) 0 0 := by
    simp [startZombieGame, hidle, startZombieUpdates_zombieGame]
  rw [hstart]
  exact spawnZombies_positions ctl map d rand _ 0 0

/-- C21 amended, at an instance: the first hunter of a start with difficulty 3,
all cells traversable and all draws `0`, is at the traversable `(2, 2)`. -/
theorem C21_spawn_positions_witness :
    (∃ x y : ℤ, (⟨2, 2⟩ : Pos) = ⟨x, y⟩
        ∧ gridController.isValidMove x y "escom_cafeteria" = true)
      ∨ ((⟨2, 2⟩ : Pos) = ⟨20, 15⟩
        ∧ ∃ idx, ∀ j < 101,
          gridController.isValidMove (candidate zeroRand idx j).1
            (candidate zeroRand idx j).2 "escom_cafeteria" = false) :=
  C21_spawn_positions gridController ServerState.init 0 zeroRand 3 "escom_cafeteria" rfl
    { id := "zombie_0", position := ⟨2, 2⟩, target := none, difficulty := 3 }
    (by
      have h : (startZombieGame gridController ServerState.init 0 zeroRand 3
          "escom_cafeteria").1.zombieGame.zombies
          = spawnZombies gridController "escom_cafeteria" 3 zeroRand 6 0 0 := by
        rfl
      rw [h]
      simp [spawnZombies, findValidPosition_zero]
      decide)

/-! ## What resets the throttle, and a change of map alone -/


/-- C22, as stated, fails: with `p1` stored at `(3, 4)` since 1000 ms, an
`update` at 2000 ms that repeats `(3, 4)` passes the gate, is dropped without a
broadcast, and still moves the timestamp of `p1` to 2000; the changed position
`(5, 6)` sent 20 ms later is rejected. -/
theorem C22_counterexample :
    afterFirstUpdate.lastUpdateTime.get "p1" = some 1000
      ∧ (shouldUpdate afterFirstUpdate.lastUpdateTime 2000 "p1").1 = true
      ∧ (handleMessage gridController afterFirstUpdate 2000 constRand
          (Inbound.msg (updateXY "p1" 3 4 none))).out = []
      ∧ (handleMessage gridController afterFirstUpdate 2000 constRand
          (Inbound.msg (updateXY "p1" 3 4 none))).state.lastUpdateTime.get "p1" = some 2000
      ∧ (handleMessage gridController
          (handleMessage gridController afterFirstUpdate 2000 constRand
            (Inbound.msg (updateXY "p1" 3 4 none))).state 2020 constRand
          (Inbound.msg (updateXY "p1" 5 6 none))).out = []
      ∧ ((handleMessage gridController
          (handleMessage gridController afterFirstUpdate 2000 constRand
            (Inbound.msg (updateXY "p1" 3 4 none))).state 2020 constRand
          (Inbound.msg (updateXY "p1" 5 6 none))).state.players.get "p1").map
            (fun e => (e.x, e.y)) = some (3, 4) := by
  decide

/-- C22, amended: every `update` that passes the 50 ms gate, whatever its
payload and whether or not a slot changes, sets the timestamp of its id to the
current clock reading; an `update` for the same id handled less than 50 ms
later is then rejected: it leaves the state as it was and sends nothing. -/
theorem C22_gate_resets_timestamp (ctl : ZombieController) (s : ServerState)
    (now now2 : Nat) (rand rand2 : Rand) (m m2 : Message) (id id2 : String)
    (htype : m.type = "update") (hid : m.id = IdField.str id) (hne : jsTrim id ≠ "")
    (htype2 : m2.type = "update") (hid2 : m2.id = IdField.str id2)
    (hsame : jsTrim id2 = jsTrim id)
    (hgate : (shouldUpdate s.lastUpdateTime now (jsTrim id)).1 = true)
    (hpos : 0 < now) (hclose : (now2 : ℤ) - (now : ℤ) < 50) :
    (handleMessage ctl s now rand (Inbound.msg m)).state.lastUpdateTime.get (jsTrim id)
        = some now
      ∧ (handleMessage ctl (handleMessage ctl s now rand (Inbound.msg m)).state now2 rand2
          (Inbound.msg m2)).state = (handleMessage ctl s now rand (Inbound.msg m)).state
      ∧ (handleMessage ctl (handleMessage ctl s now rand (Inbound.msg m)).state now2 rand2
          (Inbound.msg m2)).out = [] := by
  have hne2 : jsTrim id2 ≠ "" := by rw [hsame]; exact hne
  have hstamp : (handleMessage ctl s now rand (Inbound.msg m)).state.lastUpdateTime.get
      (jsTrim id) = some now := by
    rw [handleMessage_update ctl s now rand m id htype hid hne, handleUpdate_lastUpdateTime,
      shouldUpdate_accepted _ _ _ hgate]
  have hrej : (shouldUpdate (handleMessage ctl s now rand (Inbound.msg m)).state.lastUpdateTime
      now2 (jsTrim id)).1 = false := by
    unfold shouldUpdate
    rw [hstamp]
    have hz : ¬ now = 0 := by omega
    have hd : ¬ ((now2 : ℤ) - (now : ℤ) ≥ 50) := by omega
    simp [hz, hd]
  refine ⟨hstamp, ?_, ?_⟩
  · rw [handleMessage_update ctl _ now2 rand2 m2 id2 htype2 hid2 hne2, hsame,
      handleUpdate_rejected _ _ _ _ _ hrej]
  · rw [handleMessage_update ctl _ now2 rand2 m2 id2 htype2 hid2 hne2, hsame,
      handleUpdate_rejected _ _ _ _ _ hrej]

/-- C22 amended, at an instance: the repeated position at 2000 ms, then the
changed one at 2020 ms. -/
theorem C22_gate_resets_timestamp_witness :
    (handleMessage gridController afterFirstUpdate 2000 constRand
        (Inbound.msg (updateXY "p1" 3 4 none))).state.lastUpdateTime.get (jsTrim "p1")
        = some 2000
      ∧ (handleMessage gridController
          (handleMessage gridController afterFirstUpdate 2000 constRand
            (Inbound.msg (updateXY "p1" 3 4 none))).state 2020 constRand
          (Inbound.msg (updateXY "p1" 5 6 none))).out = [] :=
  ⟨(C22_gate_resets_timestamp gridController afterFirstUpdate 2000 2020 constRand constRand
      (updateXY "p1" 3 4 none) (updateXY "p1" 5 6 none) "p1" "p1" rfl rfl jsTrim_p1_ne rfl rfl
      rfl (by decide) (by decide) (by decide)).1,
   (C22_gate_resets_timestamp gridController afterFirstUpdate 2000 2020 constRand constRand
      (updateXY "p1" 3 4 none) (updateXY "p1" 5 6 none) "p1" "p1" rfl rfl jsTrim_p1_ne rfl rfl
      rfl (by decide) (by decide) (by decide)).2.2⟩

/-- An `update` that passes the gate and repeats the stored `x` and `y`, for a
map other than `global`: only the timestamp changes, and nothing is sent. -/
theorem handleMessage_same_xy (ctl : ZombieController) (s : ServerState) (now : Nat)
    (rand : Rand) (m : Message) (id : String) (prev : Player) (htype : m.type = "update")
    (hid : m.id = IdField.str id) (hne : jsTrim id ≠ "")
    (hgate : (shouldUpdate s.lastUpdateTime now (jsTrim id)).1 = true)
    (hstored : s.players.get (jsTrim id) = some prev) (hx : m.x = some prev.x)
    (hy : m.y = some prev.y) (hmap : m.map ≠ some "global") :
    (handleMessage ctl s now rand (Inbound.msg m)).state
        = { s with lastUpdateTime := (shouldUpdate s.lastUpdateTime now (jsTrim id)).2 }
      ∧ (handleMessage ctl s now rand (Inbound.msg m)).out = [] := by
  rw [handleMessage_update ctl s now rand m id htype hid hne,
    handleUpdate_accepted _ _ _ _ _ hgate]
  have hshape : processPosition (scaleGlobal m)
      = some { localPos := some ⟨prev.x, prev.y⟩, remotePos := none } := by
    simp [processPosition, scaleGlobal, htype, hmap, hx, hy]
  simp [reconcile, hshape, updateLocal, updateRemote, hstored,
    hasPositionChangedSignificantly]

/-- An `update` that passes the gate and carries the stored `x` and `y` for the
map `global`, where the division by 1000000 yields a coordinate other than the
stored one: the entry is rewritten on the map `global` and one `update` is
broadcast. -/
theorem handleMessage_same_xy_global (ctl : ZombieController) (s : ServerState) (now : Nat)
    (rand : Rand) (m : Message) (id : String) (prev : Player) (htype : m.type = "update")
    (hid : m.id = IdField.str id) (hne : jsTrim id ≠ "")
    (hgate : (shouldUpdate s.lastUpdateTime now (jsTrim id)).1 = true)
    (hstored : s.players.get (jsTrim id) = some prev) (hx : m.x = some prev.x)
    (hy : m.y = some prev.y) (hmap : m.map = some "global")
    (hnz : prev.x ≠ prev.x / 1000000 ∨ prev.y ≠ prev.y / 1000000) :
    ((handleMessage ctl s now rand (Inbound.msg m)).state.players.get (jsTrim id)).map
        Player.currentMap = some "global"
      ∧ (handleMessage ctl s now rand (Inbound.msg m)).out
          = [Out.broadcast (Payload.update (jsTrim id) (prev.x / 1000000) (prev.y / 1000000)
              "global")] := by
  rw [handleMessage_update ctl s now rand m id htype hid hne,
    handleUpdate_accepted _ _ _ _ _ hgate]
  have hshape : processPosition (scaleGlobal m)
      = some { localPos := some ⟨prev.x / 1000000, prev.y / 1000000⟩, remotePos := none } := by
    simp [processPosition, scaleGlobal, htype, hmap, hx, hy]
  have hchanged : hasPositionChangedSignificantly (some prev)
      ⟨prev.x / 1000000, prev.y / 1000000⟩ = true := by
    rcases hnz with h | h
    · simp [hasPositionChangedSignificantly, h]
    · simp [hasPositionChangedSignificantly, h]
  have hstr : strOr (some "global") "main" = "global" := by decide
  simp [reconcile, hshape, scaleGlobal_map, hmap, hstr, updateLocal, updateRemote, hstored,
    hchanged, Obj.get_set]

/-- C23, as stated, fails for the map name `global`: with `p1` stored at
`(3, 4)` on `main`, an `update` that passes the gate and carries `x = 3`,
`y = 4` and `map = "global"` rewrites the entry on the map `global` and
broadcasts one `update`. -/
theorem C23_counterexample :
    (afterFirstUpdate.players.get "p1").map (fun e => (e.x, e.y, e.currentMap))
        = some (3, 4, "main")
      ∧ (shouldUpdate afterFirstUpdate.lastUpdateTime 2000 (jsTrim "p1")).1 = true
      ∧ ((handleMessage gridController afterFirstUpdate 2000 constRand
          (Inbound.msg (updateXY "p1" 3 4 (some "global")))).state.players.get
            (jsTrim "p1")).map Player.currentMap = some "global"
      ∧ (handleMessage gridController afterFirstUpdate 2000 constRand
          (Inbound.msg (updateXY "p1" 3 4 (some "global")))).out
          = [Out.broadcast (Payload.update (jsTrim "p1") (3 / 1000000) (4 / 1000000)
              "global")] := by
  have h := handleMessage_same_xy_global gridController afterFirstUpdate 2000 constRand
    (updateXY "p1" 3 4 (some "global")) "p1"
    { x := 3, y := 4, currentMap := "main", color := generateRandomColor halfDraw,
      type := "local" }
    rfl rfl jsTrim_p1_ne (by decide) (by rfl) rfl rfl rfl (Or.inl (by norm_num))
  exact ⟨by decide, by decide, h.1, h.2⟩

/-- C23, amended: for an id with a stored local entry `prev`, an `update` that
passes the throttle gate and carries the stored `x` and `y` with a map name
other than `global` (different from the stored one or not) leaves `players`
unchanged, so the entry keeps its `currentMap` and the in-map filter of the
tick selects the same players, and nothing is sent. -/
theorem C23_map_change_alone (ctl : ZombieController) (s : ServerState) (now : Nat)
    (rand : Rand) (m : Message) (id : String) (prev : Player) (htype : m.type = "update")
    (hid : m.id = IdField.str id) (hne : jsTrim id ≠ "")
    (hgate : (shouldUpdate s.lastUpdateTime now (jsTrim id)).1 = true)
    (hstored : s.players.get (jsTrim id) = some prev) (hx : m.x = some prev.x)
    (hy : m.y = some prev.y) (hmap : m.map ≠ some "global") :
    (handleMessage ctl s now rand (Inbound.msg m)).state.players = s.players
      ∧ (handleMessage ctl s now rand (Inbound.msg m)).state.players.get (jsTrim id)
          = some prev
      ∧ playersInMap (handleMessage ctl s now rand (Inbound.msg m)).state = playersInMap s
      ∧ (handleMessage ctl s now rand (Inbound.msg m)).out = [] := by
  obtain ⟨hstate, hout⟩ := handleMessage_same_xy ctl s now rand m id prev htype hid hne hgate
    hstored hx hy hmap
  rw [hstate]
  exact ⟨rfl, hstored, rfl, hout⟩

/-- C23 amended, at an instance: `p1`, stored at `(3, 4)` on `main`, reports
`(3, 4)` on `escom_cafeteria`. -/
theorem C23_map_change_alone_witness :
    ((handleMessage gridController afterFirstUpdate 2000 constRand
        (Inbound.msg (updateXY "p1" 3 4 (some "escom_cafeteria")))).state.players.get
          (jsTrim "p1")).map Player.currentMap = some "main"
      ∧ (handleMessage gridController afterFirstUpdate 2000 constRand
        (Inbound.msg (updateXY "p1" 3 4 (some "escom_cafeteria")))).out = [] :=
  ⟨by
    rw [(C23_map_change_alone gridController afterFirstUpdate 2000 constRand
      (updateXY "p1" 3 4 (some "escom_cafeteria")) "p1"
      { x := 3, y := 4, currentMap := "main", color := generateRandomColor halfDraw,
        type := "local" }
      rfl rfl jsTrim_p1_ne (by decide) (by rfl) rfl rfl (by decide)).2.1]
    rfl,
   (C23_map_change_alone gridController afterFirstUpdate 2000 constRand
      (updateXY "p1" 3 4 (some "escom_cafeteria")) "p1"
      { x := 3, y := 4, currentMap := "main", color := generateRandomColor halfDraw,
        type := "local" }
      rfl rfl jsTrim_p1_ne (by decide) (by rfl) rfl rfl (by decide)).2.2.2⟩

end OnlineServer
